import Mathlib

set_option maxRecDepth 40000

/-!
A verification development for the Company-Research-Assistant backend
(`backend/services/research_service.py`).  Python strings are modelled as
`List Char` (`PyStr`), and the service's string manipulation, JSON
handling, plan synthesis, conversation store, chat dispatch, and SSE
streaming are embedded as executable Lean functions.  Python exceptions
that escape a function are modelled by an `Option` result (`none` =
the call raises).  External collaborators (the vector store, the Serper
web search, the Groq model, the wall clock) are passed in as explicit
parameters, matching §6 of the specification, which treats them as
external interfaces.

Model notes, for functions whose exact behaviour is library-defined:
* `json_loads` models Python's `json.loads` (strict mode): JSON values,
  objects with last-duplicate-wins keys, `\uXXXX` escapes with surrogate
  pairs (lone surrogates, and the `NaN`/`Infinity` extensions, are not
  modelled), and numbers read exactly as decimals (`Dec`, a mantissa and
  a power of ten, which is exact on every decimal literal).
* `json_dumps` models `json.dumps` with default options (`ensure_ascii`,
  separators `", "` and `": "`); non-integral numbers are rendered by
  `decFloatRepr`, an approximation of CPython float repr that no theorem
  below depends on.
* `pyStrip`/`Char.toLower` cover ASCII whitespace and ASCII case, the
  fragments exercised by the service.
* pydantic (v2) field validation on model construction is modelled by
  the string/shape checks in `build_account_plan_from_llm`; `hasattr` on
  an `AccountPlan` is modelled by membership in its declared field names.
-/

/-! ## Python-string primitives -/

abbrev PyStr := List Char

/-- ASCII whitespace, as stripped by Python's `str.strip()`. -/
def isPyWs (c : Char) : Bool :=
  c = ' ' || c = '\t' || c = '\n' || c = '\r' || c = '\x0b' || c = '\x0c'

/-- `str.lstrip()` restricted to a character predicate. -/
def pyLStripBy (p : Char → Bool) (s : PyStr) : PyStr := s.dropWhile p

/-- `str.rstrip(chars)`: drop trailing characters satisfying `p`. -/
def pyRStripBy (p : Char → Bool) (s : PyStr) : PyStr :=
  (s.reverse.dropWhile p).reverse

/-- `str.strip()` (no argument): strip whitespace from both ends. -/
def pyStrip (s : PyStr) : PyStr := pyRStripBy isPyWs (pyLStripBy isPyWs s)

/-- `a.startswith(b)`. -/
def pyStartsWith (s pre : PyStr) : Bool := pre.isPrefixOf s

/-- `needle in hay` for Python strings. -/
def pyContains : PyStr → PyStr → Bool
  | hay, needle =>
    if needle.isPrefixOf hay then true
    else
      match hay with
      | [] => false
      | _ :: t => pyContains t needle

/-- `s.split("\n", 1)`: the part before the first newline, and
(optionally) everything after it. -/
def splitOnceNl : PyStr → PyStr × Option PyStr
  | [] => ([], none)
  | c :: t =>
    if c = '\n' then ([], some t)
    else
      let r := splitOnceNl t
      (c :: r.1, r.2)

/-- `s.find(c)` for a single character (`none` models `-1`). -/
def pyFindChar (c : Char) : PyStr → Option Nat
  | [] => none
  | d :: t => if d = c then some 0 else (pyFindChar c t).map (· + 1)

/-- `s.rfind(c)` for a single character (`none` models `-1`). -/
def pyRFindChar (c : Char) (s : PyStr) : Option Nat :=
  (pyFindChar c s.reverse).map (fun j => s.length - 1 - j)

/-- `s[a:b]` with non-negative bounds. -/
def pySlice (s : PyStr) (a b : Nat) : PyStr := (s.take b).drop a

/-- `s.lower()` (ASCII case, the fragment the service exercises). -/
def pyLower (s : PyStr) : PyStr := s.map Char.toLower

/-- `sep.join(items)`. -/
def pyJoin (sep : PyStr) : List PyStr → PyStr
  | [] => []
  | [x] => x
  | x :: y :: t => x ++ sep ++ pyJoin sep (y :: t)

/-- `s.replace(pat, rep)` for a non-empty pattern: left-to-right,
non-overlapping (fuelled by the length of `s`, which bounds the number
of steps). -/
def pyReplaceFuel (pat rep : PyStr) : Nat → PyStr → PyStr
  | _, [] => []
  | 0, s => s
  | Nat.succ n, c :: t =>
    if pat.isPrefixOf (c :: t) then
      rep ++ pyReplaceFuel pat rep n ((c :: t).drop pat.length)
    else
      c :: pyReplaceFuel pat rep n t

def pyReplace (s pat rep : PyStr) : PyStr := pyReplaceFuel pat rep s.length s

/-- Decimal rendering of a natural number, as in `str(n)`. -/
def natRepr (n : Nat) : PyStr := (Nat.repr n).toList

/-- Decimal rendering of an integer, as in `str(i)`. -/
def intRepr (i : Int) : PyStr :=
  if i < 0 then '-' :: natRepr i.natAbs else natRepr i.natAbs

/-! ## JSON values (the Python objects produced by `json.loads`)

`jnull` doubles as Python `None`, which is also what `dict.get` returns
for an absent key. -/

/-- An exact decimal number `m * 10 ^ e`: the value of any JSON number
literal (and of the Python floats the service compares against the
literals `0.0`/`1.0`).  Exact, and kernel-computable. -/
structure Dec where
  m : Int
  e : Int
  deriving DecidableEq

def decZero : Dec := ⟨0, 0⟩
def decOne : Dec := ⟨1, 0⟩

inductive JVal where
  | jnull : JVal
  | jbool (b : Bool) : JVal
  | jnum (d : Dec) : JVal
  | jstr (s : PyStr) : JVal
  | jarr (elems : List JVal) : JVal
  | jobj (fields : List (PyStr × JVal)) : JVal

/-- Python truthiness of a JSON-shaped value. -/
def pyTruthy : JVal → Bool
  | .jnull => false
  | .jbool b => b
  | .jnum d => d.m ≠ 0
  | .jstr s => !s.isEmpty
  | .jarr xs => !xs.isEmpty
  | .jobj kvs => !kvs.isEmpty

/-- First binding of a key in an object (keys are unique after parsing,
so this is Python `dict` lookup). -/
def objLookup (kvs : List (PyStr × JVal)) (k : PyStr) : Option JVal :=
  (kvs.find? (fun kv => kv.1 = k)).map (·.2)

/-- `d.get(k, default)`. -/
def objGetD (kvs : List (PyStr × JVal)) (k : PyStr) (dflt : JVal) : JVal :=
  (objLookup kvs k).getD dflt

/-- `d[k] = v` during parsing: later duplicates overwrite in place, as
in a Python dict. -/
def objInsert (kvs : List (PyStr × JVal)) (k : PyStr) (v : JVal) :
    List (PyStr × JVal) :=
  match kvs with
  | [] => [(k, v)]
  | (k', v') :: t => if k' = k then (k', v) :: t else (k', v') :: objInsert t k v

/-! ## A model of `json.loads` (strict mode) -/

/-- JSON structural whitespace. -/
def isJsonWs (c : Char) : Bool := c = ' ' || c = '\t' || c = '\n' || c = '\r'

def skipWs (s : PyStr) : PyStr := s.dropWhile isJsonWs

def hexVal (c : Char) : Option Nat :=
  if '0' ≤ c ∧ c ≤ '9' then some (c.toNat - '0'.toNat)
  else if 'a' ≤ c ∧ c ≤ 'f' then some (c.toNat - 'a'.toNat + 10)
  else if 'A' ≤ c ∧ c ≤ 'F' then some (c.toNat - 'A'.toNat + 10)
  else none

def hex4 : PyStr → Option (Nat × PyStr)
  | a :: b :: c :: d :: rest => do
    let x1 ← hexVal a
    let x2 ← hexVal b
    let x3 ← hexVal c
    let x4 ← hexVal d
    some (((x1 * 16 + x2) * 16 + x3) * 16 + x4, rest)
  | _ => none

/-- Decode one `\uXXXX` escape (with surrogate-pair combination). -/
def uEscape (s : PyStr) : Option (Char × PyStr) := do
  let (n, rest) ← hex4 s
  if 0xD800 ≤ n ∧ n < 0xDC00 then
    match rest with
    | '\\' :: 'u' :: rest2 => do
      let (lo, rest3) ← hex4 rest2
      if 0xDC00 ≤ lo ∧ lo < 0xE000 then
        let code := 0x10000 + (n - 0xD800) * 0x400 + (lo - 0xDC00)
        if code < 0x110000 ∧ ¬(0xD800 ≤ code ∧ code < 0xE000) then
          some (Char.ofNat code, rest3)
        else none
      else none
    | _ => none
  else
    if n < 0xD800 ∨ (0xE000 ≤ n ∧ n < 0x110000) then
      some (Char.ofNat n, rest)
    else none

/-- Body of a JSON string after the opening quote; returns the decoded
characters and the remainder after the closing quote. -/
def parseStrBody : Nat → PyStr → Option (PyStr × PyStr)
  | 0, _ => none
  | _ + 1, [] => none
  | n + 1, c :: t =>
    if c = '"' then some ([], t)
    else if c = '\\' then
      match t with
      | [] => none
      | e :: t2 =>
        let simple : Option Char :=
          if e = '"' then some '"'
          else if e = '\\' then some '\\'
          else if e = '/' then some '/'
          else if e = 'b' then some '\x08'
          else if e = 'f' then some '\x0c'
          else if e = 'n' then some '\n'
          else if e = 'r' then some '\r'
          else if e = 't' then some '\t'
          else none
        match simple with
        | some ch => (parseStrBody n t2).map (fun r => (ch :: r.1, r.2))
        | none =>
          if e = 'u' then
            match uEscape t2 with
            | some (ch, t3) => (parseStrBody n t3).map (fun r => (ch :: r.1, r.2))
            | none => none
          else none
    else if c.toNat < 0x20 then none
    else (parseStrBody n t).map (fun r => (c :: r.1, r.2))

def isDigit (c : Char) : Bool := '0' ≤ c && c ≤ '9'

def digitsToNat (ds : PyStr) : Nat :=
  ds.foldl (fun acc c => acc * 10 + (c.toNat - '0'.toNat)) 0

/-- JSON number grammar: `-?(0|[1-9][0-9]*)(.[0-9]+)?([eE][+-]?[0-9]+)?`,
read exactly as a decimal. -/
def parseNum (s : PyStr) : Option (Dec × PyStr) :=
  let (neg, s1) :=
    match s with
    | '-' :: t => (true, t)
    | _ => (false, s)
  let intDigits := s1.takeWhile isDigit
  let s2 := s1.dropWhile isDigit
  if intDigits.isEmpty then none
  else if intDigits.length > 1 && intDigits.head? == some '0' then none
  else
    let hasDot := s2.head? == some '.'
    let fracDigits := if hasDot then s2.tail.takeWhile isDigit else []
    if hasDot && fracDigits.isEmpty then none
    else
      let s3 := if hasDot then s2.tail.dropWhile isDigit else s2
      let hasExp := s3.head? == some 'e' || s3.head? == some 'E'
      let (expNeg, expBody) :=
        if hasExp then
          match s3.tail with
          | '+' :: u => (false, u)
          | '-' :: u => (true, u)
          | u => (false, u)
        else (false, ([] : PyStr))
      let expDigits := expBody.takeWhile isDigit
      if hasExp && expDigits.isEmpty then none
      else
        let s4 := if hasExp then expBody.dropWhile isDigit else s3
        let mantNat : Nat :=
          digitsToNat intDigits * 10 ^ fracDigits.length + digitsToNat fracDigits
        let mantissa : Int := if neg then -(mantNat : Int) else (mantNat : Int)
        let e10 : Int :=
          (if expNeg then -(digitsToNat expDigits : Int)
           else (digitsToNat expDigits : Int)) - (fracDigits.length : Int)
        some (⟨mantissa, e10⟩, s4)

/-- Consume an exact literal (e.g. the `rue` of `true`). -/
def expectLit (lit s : PyStr) : Option PyStr :=
  if lit.isPrefixOf s then some (s.drop lit.length) else none

mutual
/-- One JSON value, fuelled; the input starts at the value's first
character (no leading whitespace). -/
def parseVal : Nat → PyStr → Option (JVal × PyStr)
  | 0, _ => none
  | _ + 1, [] => none
  | n + 1, c :: t =>
    if c = '{' then
      let t2 := skipWs t
      if t2.head? = some '}' then some (.jobj [], t2.tail)
      else (parseMembers n t2 []).map (fun r => (JVal.jobj r.1, r.2))
    else if c = '[' then
      let t2 := skipWs t
      if t2.head? = some ']' then some (.jarr [], t2.tail)
      else (parseItems n t2).map (fun r => (JVal.jarr r.1, r.2))
    else if c = '"' then
      (parseStrBody (t.length + 1) t).map (fun r => (JVal.jstr r.1, r.2))
    else if c = 't' then
      (expectLit ("rue".toList) t).map (fun t2 => (JVal.jbool true, t2))
    else if c = 'f' then
      (expectLit ("alse".toList) t).map (fun t2 => (JVal.jbool false, t2))
    else if c = 'n' then
      (expectLit ("ull".toList) t).map (fun t2 => (JVal.jnull, t2))
    else if c = '-' ∨ isDigit c then
      (parseNum (c :: t)).map (fun r => (JVal.jnum r.1, r.2))
    else none

/-- Members of an object after `{` (first member's key expected at the
head, whitespace already skipped); accumulates with dict-overwrite. -/
def parseMembers : Nat → PyStr → List (PyStr × JVal) →
    Option (List (PyStr × JVal) × PyStr)
  | 0, _, _ => none
  | _ + 1, [], _ => none
  | n + 1, c :: t, acc =>
    if c = '"' then do
      let (key, r1) ← parseStrBody (t.length + 1) t
      match skipWs r1 with
      | ':' :: r2 => do
        let (v, r3) ← parseVal n (skipWs r2)
        let acc := objInsert acc key v
        match skipWs r3 with
        | ',' :: r4 => parseMembers n (skipWs r4) acc
        | '}' :: r4 => some (acc, r4)
        | _ => none
      | _ => none
    else none

/-- Items of an array after `[` (first item expected at the head,
whitespace already skipped). -/
def parseItems : Nat → PyStr → Option (List JVal × PyStr)
  | 0, _ => none
  | n + 1, s => do
    let (v, r1) ← parseVal n s
    match skipWs r1 with
    | ',' :: r2 => (parseItems n (skipWs r2)).map (fun r => (v :: r.1, r.2))
    | ']' :: r2 => some ([v], r2)
    | _ => none
end

/-- `json.loads` : `none` models a raised `JSONDecodeError`. -/
def json_loads (s : PyStr) : Option JVal :=
  match parseVal (2 * s.length + 2) (skipWs s) with
  | some (v, rest) => if skipWs rest = [] then some v else none
  | none => none

/-! ## Rendering: `str()`, `repr()` and `json.dumps` -/

/-- Decimal repr of a non-integral (float) decimal, e.g. `0.86`, `1.5`. -/
def decFloatRepr (d : Dec) : PyStr :=
  if 0 ≤ d.e then
    intRepr d.m ++ List.replicate d.e.toNat '0' ++ ".0".toList
  else
    let k := (-d.e).toNat
    let ds := natRepr d.m.natAbs
    let ds := if ds.length ≤ k then List.replicate (k + 1 - ds.length) '0' ++ ds else ds
    (if d.m < 0 then ['-'] else []) ++ ds.take (ds.length - k) ++ '.' :: ds.drop (ds.length - k)

/-- How a parsed JSON number prints again: an integer literal stays an
`int`, anything else became a Python float. -/
def decJsonRepr (d : Dec) : PyStr :=
  if d.e = 0 then intRepr d.m else decFloatRepr d

def toHexDigit (n : Nat) : Char :=
  if n < 10 then Char.ofNat ('0'.toNat + n) else Char.ofNat ('a'.toNat + n - 10)

def toHex4 (n : Nat) : PyStr :=
  [toHexDigit (n / 4096 % 16), toHexDigit (n / 256 % 16),
   toHexDigit (n / 16 % 16), toHexDigit (n % 16)]

/-- One character of a JSON string under `json.dumps` defaults
(`ensure_ascii=True`). -/
def jsonEscapeChar (c : Char) : PyStr :=
  if c = '"' then ['\\', '"']
  else if c = '\\' then ['\\', '\\']
  else if c = '\n' then ['\\', 'n']
  else if c = '\r' then ['\\', 'r']
  else if c = '\t' then ['\\', 't']
  else if c = '\x08' then ['\\', 'b']
  else if c = '\x0c' then ['\\', 'f']
  else if c.toNat < 0x20 then '\\' :: 'u' :: toHex4 c.toNat
  else if c.toNat < 0x7F then [c]
  else if c.toNat ≤ 0xFFFF then '\\' :: 'u' :: toHex4 c.toNat
  else
    let n := c.toNat - 0x10000
    '\\' :: 'u' :: toHex4 (0xD800 + n / 0x400) ++ '\\' :: 'u' :: toHex4 (0xDC00 + n % 0x400)

def jsonQuote (s : PyStr) : PyStr := '"' :: (s.map jsonEscapeChar).flatten ++ ['"']

/-- `json.dumps` with default options, fuelled on nesting depth. -/
def json_dumps_fuel : Nat → JVal → PyStr
  | 0, _ => []
  | n + 1, v =>
    match v with
    | .jnull => "null".toList
    | .jbool true => "true".toList
    | .jbool false => "false".toList
    | .jnum d => decJsonRepr d
    | .jstr s => jsonQuote s
    | .jarr xs =>
      '[' :: pyJoin (", ".toList) (xs.map (json_dumps_fuel n)) ++ [']']
    | .jobj kvs =>
      '{' :: pyJoin (", ".toList)
        (kvs.map (fun kv => jsonQuote kv.1 ++ ": ".toList ++ json_dumps_fuel n kv.2)) ++ ['}']

def json_dumps (v : JVal) : PyStr := json_dumps_fuel 1000000 v

def indentSp (lvl : Nat) : PyStr := List.replicate (2 * lvl) ' '

/-- `json.dumps(..., indent=2)` (item separator becomes `",\n"`). -/
def json_dumps_ind_fuel : Nat → Nat → JVal → PyStr
  | 0, _, _ => []
  | n + 1, lvl, v =>
    match v with
    | .jarr [] => "[]".toList
    | .jobj [] => "\x7b\x7d".toList
    | .jarr xs =>
      '[' :: '\n' :: pyJoin (",\n".toList)
          (xs.map (fun x => indentSp (lvl + 1) ++ json_dumps_ind_fuel n (lvl + 1) x))
        ++ '\n' :: indentSp lvl ++ [']']
    | .jobj kvs =>
      '{' :: '\n' :: pyJoin (",\n".toList)
          (kvs.map (fun kv => indentSp (lvl + 1) ++ jsonQuote kv.1 ++ ": ".toList
            ++ json_dumps_ind_fuel n (lvl + 1) kv.2))
        ++ '\n' :: indentSp lvl ++ ['}']
    | .jnull => "null".toList
    | .jbool true => "true".toList
    | .jbool false => "false".toList
    | .jnum d => decJsonRepr d
    | .jstr s => jsonQuote s

def json_dumps_indent2 (v : JVal) : PyStr := json_dumps_ind_fuel 1000000 0 v

/-- Python `repr()` of a JSON-shaped value (fuelled).  String repr is
approximated as single quotes without inner escaping; the service only
interpolates strings and scalars into f-strings. -/
def pyReprFuel : Nat → JVal → PyStr
  | 0, _ => []
  | n + 1, v =>
    match v with
    | .jnull => "None".toList
    | .jbool true => "True".toList
    | .jbool false => "False".toList
    | .jnum d => if d.e = 0 then intRepr d.m else decFloatRepr d
    | .jstr s => '\'' :: s ++ ['\'']
    | .jarr xs =>
      '[' :: pyJoin (", ".toList) (xs.map (pyReprFuel n)) ++ [']']
    | .jobj kvs =>
      '{' :: pyJoin (", ".toList)
        (kvs.map (fun kv => '\'' :: kv.1 ++ '\'' :: ": ".toList ++ pyReprFuel n kv.2)) ++ ['}']

/-- Python `str()` as used by f-string interpolation. -/
def pyStrOf : JVal → PyStr
  | .jstr s => s
  | .jnull => "None".toList
  | .jbool true => "True".toList
  | .jbool false => "False".toList
  | .jnum d => if d.e = 0 then intRepr d.m else decFloatRepr d
  | v => pyReprFuel 1000000 v

/-- Python `float(x)` applied to a string (the fragment without
`inf`/`nan`/underscores, which the service never receives). -/
def parseFloatStr (s : PyStr) : Option Dec :=
  let t := pyStrip s
  let (neg, t1) :=
    match t with
    | '+' :: u => (false, u)
    | '-' :: u => (true, u)
    | _ => (false, t)
  let intD := t1.takeWhile isDigit
  let r1 := t1.dropWhile isDigit
  let hasDot := r1.head? == some '.'
  let fracD := if hasDot then r1.tail.takeWhile isDigit else []
  let r2 := if hasDot then r1.tail.dropWhile isDigit else r1
  if intD.isEmpty && fracD.isEmpty then none
  else
    let hasExp := r2.head? == some 'e' || r2.head? == some 'E'
    let (expNeg, expBody) :=
      if hasExp then
        match r2.tail with
        | '+' :: u => (false, u)
        | '-' :: u => (true, u)
        | u => (false, u)
      else (false, ([] : PyStr))
    let expD := expBody.takeWhile isDigit
    if hasExp && expD.isEmpty then none
    else
      let r3 := if hasExp then expBody.dropWhile isDigit else r2
      if !r3.isEmpty then none
      else
        let mantNat : Nat :=
          digitsToNat intD * 10 ^ fracD.length + digitsToNat fracD
        let mantissa : Int := if neg then -(mantNat : Int) else (mantNat : Int)
        let e10 : Int :=
          (if expNeg then -(digitsToNat expD : Int) else (digitsToNat expD : Int))
            - (fracD.length : Int)
        some ⟨mantissa, e10⟩

/-- Python `float(x)` on a JSON-shaped value: `none` models the
`TypeError`/`ValueError` the service catches. -/
def pyFloat : JVal → Option Dec
  | .jnum d => some d
  | .jbool b => some (if b then decOne else decZero)
  | .jstr s => parseFloatStr s
  | _ => none

/-! ## Data model (`backend/models.py`)

Pydantic `Literal`/`Optional` types are validated at construction time;
after construction, fields are plain Python attributes, so `depth` is
modelled as a string like every narrative field.  `jnull` doubles as
Python `None` for the JSON-shaped optional fields. -/

structure StartResearchRequest where
  company_name : PyStr
  depth : PyStr
  extra_instructions : Option PyStr
  deriving DecidableEq

structure ResearchStep where
  id : PyStr
  label : PyStr
  status : PyStr
  detail : Option PyStr
  deriving DecidableEq

structure ResearchMetadata where
  generated_at : PyStr
  depth : PyStr
  sources_used : List PyStr
  steps : List ResearchStep
  conflicts_detected : Bool
  confidence_score : Dec
  deriving DecidableEq

structure CompanySection where
  title : PyStr
  content : PyStr
  deriving DecidableEq

structure AccountPlan where
  company_name : PyStr
  depth : PyStr
  overview : PyStr
  company_profile : PyStr
  market_analysis : PyStr
  financial_highlights : PyStr
  product_portfolio : PyStr
  technology_stack : PyStr
  competitors : PyStr
  swot : PyStr
  opportunities : PyStr
  risks : PyStr
  account_plan_30_60_90 : PyStr
  kpi_summary : JVal
  sources : Option (List (PyStr × JVal))
  metadata : ResearchMetadata
  sections : List CompanySection

structure ChatMessageRequest where
  conversation_id : PyStr
  message : PyStr

/-- `_CONVERSATIONS[cid]`: the per-conversation dict built by
`start_research` (`plan`, `history`, `conflicts_to_resolve`). -/
structure ConvState where
  plan : AccountPlan
  history : List (PyStr × PyStr)
  conflicts_to_resolve : JVal

abbrev Store := List (PyStr × ConvState)

/-- `_CONVERSATIONS.get(cid)`. -/
def lookupStore : Store → PyStr → Option ConvState
  | [], _ => none
  | (k, v) :: t, key => if k = key then some v else lookupStore t key

/-- `_CONVERSATIONS[cid] = st` (dict assignment). -/
def storeSet : Store → PyStr → ConvState → Store
  | [], key, st => [(key, st)]
  | (k, v) :: t, key, st =>
    if k = key then (k, st) :: t else (k, v) :: storeSet t key st

/-! ## String constants of `research_service.py` -/

def fence3 : PyStr := ['`', '`', '`']

/-- The en-dash of the source file was mojibake-encoded; the literal
contains exactly the three characters U+00E2, U+20AC, U+201C. -/
def snapshotSep : PyStr := " â€“ Executive Snapshot:\n\n".toList

def nnSep : PyStr := "\n\n".toList

def kOverview : PyStr := "overview".toList
def kCompanyProfile : PyStr := "company_profile".toList
def kMarketAnalysis : PyStr := "market_analysis".toList
def kFinancialHighlights : PyStr := "financial_highlights".toList
def kProductPortfolio : PyStr := "product_portfolio".toList
def kTechnologyStack : PyStr := "technology_stack".toList
def kCompetitors : PyStr := "competitors".toList
def kSwot : PyStr := "swot".toList
def kRisks : PyStr := "risks".toList
def kOpportunitiesPoints : PyStr := "opportunities_points".toList
def kPlanTable : PyStr := "plan_table".toList
def kSwotRadarScores : PyStr := "swot_radar_scores".toList
def kCompetitorChartData : PyStr := "competitor_chart_data".toList
def kKpiSummary : PyStr := "kpi_summary".toList
def kConflicts : PyStr := "conflicts".toList
def kConfidenceScore : PyStr := "confidence_score".toList
def kTopic : PyStr := "topic".toList
def kResolutionSummary : PyStr := "resolution_summary".toList

def srcRag : PyStr := "rag".toList
def srcWeb : PyStr := "web".toList
def srcLlm : PyStr := "llm".toList

def titleCompanyProfile : PyStr := "Company Profile".toList
def titleMarketAnalysis : PyStr := "Market Analysis".toList
def titleFinancialHighlights : PyStr := "Financial Highlights".toList
def titleProductPortfolio : PyStr := "Product Portfolio".toList
def titleTechnologyStack : PyStr := "Technology Stack".toList
def titleCompetitors : PyStr := "Competitors".toList
def titleSwotAnalysis : PyStr := "SWOT Analysis".toList
def titleOpportunities : PyStr := "Opportunities".toList
def titleRisks : PyStr := "Risks".toList
def titlePlan306090 : PyStr := "30-60-90 Day Plan".toList
def titleFullResearchOutput : PyStr := "Full Research Output".toList

def planSummaryText : PyStr :=
  "Structured 30-60-90 Day Plan data is available below.".toList

/-- Truthiness of an `Optional[str]`. -/
def optStrTruthy : Option PyStr → Bool
  | none => false
  | some s => !s.isEmpty

/-! ## `_strip_code_fences` and `_parse_llm_json` -/

def strip_code_fences (text : PyStr) : PyStr :=
  let cleaned := pyStrip text
  if pyStartsWith cleaned fence3 then
    let parts := splitOnceNl cleaned
    let cleaned :=
      match parts.2 with
      | some rest => if pyStartsWith (pyStrip parts.1) fence3 then rest else cleaned
      | none => cleaned
    pyStrip (pyRStripBy (· = '`') cleaned)
  else pyStrip cleaned

def parse_llm_json (raw : PyStr) : JVal :=
  let cleaned := strip_code_fences raw
  match json_loads cleaned with
  | some v => v
  | none =>
    match pyFindChar '{' cleaned, pyRFindChar '}' cleaned with
    | some s, some e =>
      if s < e then
        match json_loads (pySlice cleaned s (e + 1)) with
        | some v => v
        | none => JVal.jobj []
      else JVal.jobj []
    | _, _ => JVal.jobj []

/-! ## `_build_steps` -/

def build_steps (rag_ctx : List PyStr) (web_text : Option PyStr) :
    List ResearchStep :=
  [⟨"intent".toList, "Understand user intent and depth".toList,
      "complete".toList, some ("Parsed company name and research depth.".toList)⟩,
   ⟨"rag_search".toList, "RAG search on internal PDFs".toList,
      (if !rag_ctx.isEmpty then "complete".toList else "skipped".toList),
      some (if !rag_ctx.isEmpty then
          "Retrieved ".toList ++ natRepr rag_ctx.length ++ " internal chunks.".toList
        else "No RAG documents found.".toList)⟩,
   ⟨"web_search".toList, "External web search".toList,
      (if optStrTruthy web_text then "complete".toList else "skipped".toList),
      some (if optStrTruthy web_text then "Web search executed via Serper.".toList
        else "Web search unavailable or failed.".toList)⟩,
   ⟨"llm_synthesis".toList, "LLM synthesis of account plan".toList,
      "complete".toList,
      some ("LLM combined all signals into structured account plan.".toList)⟩]

/-! ## `_build_account_plan_from_llm`

The wall-clock string `_now_iso()` is the `now` parameter.  A `none`
result models an uncaught exception (an `AttributeError`/`TypeError` on
a non-dict truthy parse, a join over a non-iterable, or a pydantic
validation error at model construction). -/

/-- The argument of `"\n\n".join(x)`: Python accepts any iterable of
strings (a list of strings, a string, or a dict's keys). -/
def joinElems : JVal → Option (List PyStr)
  | .jstr s => some (s.map (fun c => [c]))
  | .jarr xs => xs.mapM (fun v => match v with | .jstr s => some s | _ => none)
  | .jobj kvs => some (kvs.map (·.1))
  | _ => none

/-- pydantic validation of `kpi_summary : Optional[List[Dict[str, Any]]]`. -/
def kpiOk : JVal → Bool
  | .jnull => true
  | .jarr xs => xs.all (fun v => match v with | .jobj _ => true | _ => false)
  | _ => false

/-- pydantic validation of a `str` field. -/
def asStr : JVal → Option PyStr
  | .jstr s => some s
  | _ => none

def build_account_plan_from_llm (raw : PyStr) (req : StartResearchRequest)
    (rag_ctx : List PyStr) (web_text : Option PyStr) (now : PyStr) :
    Option AccountPlan :=
  let data := parse_llm_json raw
  if !pyTruthy data then
    -- Fallback path (`if not data:`)
    let overview := req.company_name ++ snapshotSep ++ raw.take 700
    let full_content := raw
    let sections : List CompanySection := [⟨titleFullResearchOutput, full_content⟩]
    let meta : ResearchMetadata :=
      ⟨now, req.depth,
        (if !rag_ctx.isEmpty then [srcRag] else [])
          ++ (if optStrTruthy web_text then [srcWeb] else []),
        build_steps rag_ctx web_text, false, decZero⟩
    some ⟨req.company_name, req.depth, overview, [], [], [], [], [], [], [], [],
      [], [], JVal.jnull, none, meta, sections⟩
  else
    match data with
    | JVal.jobj kvs => do
      -- Normal path: structured JSON available.
      let overviewV := objGetD kvs kOverview (JVal.jstr [])
      let company_profile ← asStr (objGetD kvs kCompanyProfile (JVal.jstr []))
      let market_analysis ← asStr (objGetD kvs kMarketAnalysis (JVal.jstr []))
      let financial_highlights ← asStr (objGetD kvs kFinancialHighlights (JVal.jstr []))
      let product_portfolio ← asStr (objGetD kvs kProductPortfolio (JVal.jstr []))
      let technology_stack ← asStr (objGetD kvs kTechnologyStack (JVal.jstr []))
      let competitors ← asStr (objGetD kvs kCompetitors (JVal.jstr []))
      let swot ← asStr (objGetD kvs kSwot (JVal.jstr []))
      let risks ← asStr (objGetD kvs kRisks (JVal.jstr []))
      let opportunities_points := objGetD kvs kOpportunitiesPoints (JVal.jarr [])
      let plan_table := objGetD kvs kPlanTable (JVal.jarr [])
      let swot_radar_scores := objGetD kvs kSwotRadarScores JVal.jnull
      let competitor_chart_data := objGetD kvs kCompetitorChartData JVal.jnull
      let ops ← joinElems opportunities_points
      let opportunities_text := pyJoin nnSep ops
      let plan_summary := planSummaryText
      let kpi_summary := objGetD kvs kKpiSummary JVal.jnull
      let confidence_score_raw := objGetD kvs kConfidenceScore JVal.jnull
      let confidence_score : Dec :=
        match confidence_score_raw with
        | JVal.jnull => decZero
        | v => (pyFloat v).getD decZero
      let conflictsV := objGetD kvs kConflicts JVal.jnull
      let conflicts := if pyTruthy conflictsV then conflictsV else JVal.jarr []
      let steps := build_steps rag_ctx web_text
      let meta : ResearchMetadata :=
        ⟨now, req.depth,
          (if !rag_ctx.isEmpty then [srcRag] else [])
            ++ (if optStrTruthy web_text then [srcWeb] else []) ++ [srcLlm],
          steps, pyTruthy conflicts, confidence_score⟩
      let sections : List CompanySection :=
        [⟨titleCompanyProfile, company_profile⟩,
         ⟨titleMarketAnalysis, market_analysis⟩,
         ⟨titleFinancialHighlights, financial_highlights⟩,
         ⟨titleProductPortfolio, product_portfolio⟩,
         ⟨titleTechnologyStack, technology_stack⟩,
         ⟨titleCompetitors, competitors⟩,
         ⟨titleSwotAnalysis, swot⟩,
         ⟨titleOpportunities, opportunities_text⟩,
         ⟨titleRisks, risks⟩,
         ⟨titlePlan306090, plan_summary⟩]
      let overview ←
        if pyTruthy overviewV then asStr overviewV
        else some (req.company_name ++ snapshotSep ++ company_profile.take 400
          ++ nnSep ++ market_analysis.take 400)
      if kpiOk kpi_summary then
        some ⟨req.company_name, req.depth, overview, company_profile,
          market_analysis, financial_highlights, product_portfolio,
          technology_stack, competitors, swot, opportunities_text, risks,
          plan_summary, kpi_summary,
          some [(kSwotRadarScores, swot_radar_scores),
                (kCompetitorChartData, competitor_chart_data),
                (kPlanTable, plan_table)],
          meta, sections⟩
      else none
    | _ => none

/-! ## `update_account_plan_section` -/

/-- Replace the content of the first section with a matching title
(the loop with `break` in the source). -/
def replaceFirstSection : List CompanySection → PyStr → PyStr →
    Option (List CompanySection)
  | [], _, _ => none
  | s :: t, title, content =>
    if s.title = title then some (⟨s.title, content⟩ :: t)
    else (replaceFirstSection t title content).map (s :: ·)

/-- The declared fields of `AccountPlan`: the model of `hasattr`. -/
def planFieldNames : List PyStr :=
  ["company_name".toList, "depth".toList, "overview".toList,
   "company_profile".toList, "market_analysis".toList,
   "financial_highlights".toList, "product_portfolio".toList,
   "technology_stack".toList, "competitors".toList, "swot".toList,
   "opportunities".toList, "risks".toList, "account_plan_30_60_90".toList,
   "kpi_summary".toList, "sources".toList, "metadata".toList,
   "sections".toList]

/-- The names the source refuses to `setattr`. -/
def protectedAttrNames : List PyStr :=
  ["sections".toList, "metadata".toList, "sources".toList]

/-- `setattr(plan, attr_name, new_content)` for a declared, unprotected
field (assignment is unvalidated, so `depth` and `kpi_summary` can end
up holding a plain string). -/
def planSetattr (p : AccountPlan) (attr : PyStr) (v : PyStr) : AccountPlan :=
  if attr = "company_name".toList then { p with company_name := v }
  else if attr = "depth".toList then { p with depth := v }
  else if attr = "overview".toList then { p with overview := v }
  else if attr = "company_profile".toList then { p with company_profile := v }
  else if attr = "market_analysis".toList then { p with market_analysis := v }
  else if attr = "financial_highlights".toList then { p with financial_highlights := v }
  else if attr = "product_portfolio".toList then { p with product_portfolio := v }
  else if attr = "technology_stack".toList then { p with technology_stack := v }
  else if attr = "competitors".toList then { p with competitors := v }
  else if attr = "swot".toList then { p with swot := v }
  else if attr = "opportunities".toList then { p with opportunities := v }
  else if attr = "risks".toList then { p with risks := v }
  else if attr = "account_plan_30_60_90".toList then { p with account_plan_30_60_90 := v }
  else if attr = "kpi_summary".toList then { p with kpi_summary := JVal.jstr v }
  else p

/-- `title.lower().replace(" ", "_").replace("-", "_").replace("__", "_")`. -/
def normalizeAttrName (title : PyStr) : PyStr :=
  pyReplace (pyReplace (pyReplace (pyLower title) (" ".toList) ("_".toList))
    ("-".toList) ("_".toList)) ("__".toList) ("_".toList)

def auditUserTurn (title : PyStr) : PyStr :=
  "System Edit: Update '".toList ++ title ++ "'".toList

def auditAssistantTurn (title : PyStr) : PyStr :=
  "The section '".toList ++ title
    ++ "' has been updated with the new content.".toList

def update_account_plan_section (store : Store)
    (conversation_id section_title new_content : PyStr) : Store × Bool :=
  match lookupStore store conversation_id with
  | none => (store, false)
  | some state =>
    let plan := state.plan
    match replaceFirstSection plan.sections section_title new_content with
    | none => (store, false)
    | some sections' =>
      let plan := { plan with sections := sections' }
      let attr_name := normalizeAttrName section_title
      let plan :=
        if planFieldNames.contains attr_name
            && !(protectedAttrNames.contains attr_name) then
          planSetattr plan attr_name new_content
        else plan
      let history' := state.history
        ++ [(auditUserTurn section_title, auditAssistantTurn section_title)]
      (storeSet store conversation_id
        ⟨plan, history', state.conflicts_to_resolve⟩, true)

/-! ## `chat_with_agent` -/

/-- The external collaborators of §6: `web_search(query, num_results)`
and `call_llm(system_prompt, user_prompt)`. -/
structure Env where
  web_search : PyStr → Nat → Option PyStr
  call_llm : PyStr → PyStr → PyStr

/-- Observable external calls issued by one chat turn. -/
inductive Effect where
  | webSearch (query : PyStr) (num_results : Nat) : Effect
  | llmCall : Effect
  deriving DecidableEq

def BASE_SYSTEM_PROMPT : PyStr :=
  ("\nYou are an enterprise-grade Company Research Analyst AI.\n\n"
    ++ "Your primary goal is to synthesize information and detect conflicts to build structured account plans.\n\n"
    ++ "You:\n- Gather information from multiple sources (RAG PDFs, web search).\n"
    ++ "- CRITICAL: Detect conflicting or incomplete information between sources, explicitly listing them in the 'conflicts' array.\n"
    ++ "- Build structured account plans for sales / GTM teams.\n"
    ++ "- ALWAYS GENERATE DETAILED, INSIGHTFUL ANSWERS. Ensure narrative fields are 5-8 sentences long.\n"
    ++ "- Maintain a concise, confident, and professional tone. Focus on delivering strategic insights.\n"
    ++ "- CRITICAL: Avoid ALL conversational Markdown formatting. Specifically, DO NOT use **bold** marks (*, **). Only use plain text for narrative fields.\n"
    ++ "- Avoid all markdown formatting in your responses (no bullet symbols, no code fences, except for the required JSON output).\n").toList

def invalidConvReply : PyStr :=
  "Invalid conversation ID. Please start a new research session.".toList

def sCompetitor : PyStr := "competitor".toList
def sPie : PyStr := "pie".toList
def sChart : PyStr := "chart".toList
def sSwot : PyStr := "swot".toList
def sGraph : PyStr := "graph".toList
def sRadar : PyStr := "radar".toList
def sShow : PyStr := "show".toList
def sKpi : PyStr := "kpi".toList
def sEdit : PyStr := "edit".toList
def sSection : PyStr := "section".toList
def sDeepDive : PyStr := "deep-dive".toList
def sDigDeeper : PyStr := "dig deeper".toList

def kReplyType : PyStr := "reply_type".toList
def kChartType : PyStr := "chart_type".toList
def kData : PyStr := "data".toList
def kTitle : PyStr := "title".toList
def kNarrative : PyStr := "narrative".toList
def sChartRequest : PyStr := "chart_request".toList
def sPieType : PyStr := "pie".toList
def sRadarType : PyStr := "radar".toList
def titleCompetitorShare : PyStr := "Competitor Share Breakdown".toList
def titleSwotScores : PyStr := "SWOT Analysis Scores".toList

def chartNarrative (chart_title : PyStr) : PyStr :=
  "Here is the visual breakdown of the ".toList ++ chart_title
    ++ " data, available for rendering as a chart in the workspace.".toList

def kpiReplyOf (kpi_data : PyStr) : PyStr :=
  "Here is the structured KPI data required for visualization: ```json\n".toList
    ++ kpi_data
    ++ "\n``` You can use this to render a chart (e.g., bar chart for Revenue/Growth). Next Step: Would you like to review the updated competitors section or discuss the risks?".toList

def kpiUnavailableReply : PyStr :=
  "I apologize, the financial KPI data summary is not available for this plan depth. Would you like to run a 'deep-dive on financials'?".toList

def topicDefault : PyStr := "data discrepancy".toList
def officialReportSuffix : PyStr := " official report".toList
def noNewDataText : PyStr := "No new data found.".toList
def resolutionDefault : PyStr :=
  "The conflict could not be fully resolved with the available new data.".toList

def resolutionPromptOf (company topic newData : PyStr) : PyStr :=
  "You must resolve the following conflict in the account plan for ".toList
    ++ company ++ ".\nConflict topic: ".toList ++ topic
    ++ ".\nNew research data: ".toList ++ newData ++ "\n".toList

def resolutionReplyOf (topic summary remaining : PyStr) : PyStr :=
  "Conflict resolution for topic '".toList ++ topic
    ++ "' is complete. Summary: ".toList ++ summary
    ++ " There are ".toList ++ remaining
    ++ " remaining conflicts. You can also ask to review updated sections such as competitors or market analysis.".toList

def editSectionReply : PyStr :=
  "You can edit a specific section by specifying which section and the new focus. For example: Edit the 30-60-90 Day Plan to focus on EMEA expansion.".toList

def planContextOf (plan : AccountPlan) : PyStr :=
  "\n    Company: ".toList ++ plan.company_name
    ++ "\n    Overview: ".toList ++ plan.overview.take 500
    ++ "\n    Competitors: ".toList ++ plan.competitors.take 500
    ++ "\n    Market Analysis: ".toList ++ plan.market_analysis.take 500
    ++ "\n    Financials: ".toList ++ plan.financial_highlights.take 500
    ++ "\n    ".toList

def noPriorTurns : PyStr := "(no prior turns)".toList

def chatPromptOf (ctx hist msg : PyStr) : PyStr :=
  "\nContinue the enterprise research dialog for the following company and account plan.\nUse the Plan Data Snippets to provide context-aware answers.\n\nPlan Data Snippets:\n".toList
    ++ ctx ++ "\n\nConversation so far:\n".toList ++ hist
    ++ "\n\nUser question:\n".toList ++ msg
    ++ "\n\nRequirements:\n- Give a concise, insight-rich answer based on the plan data.\n- **PROACTIVE RULE**: At the end of your answer, add ONE short, high-value follow-up offer, for example:\n  \"Would you like me to go deeper into competitors, financials, or market trends?\"\n".toList

def historyLineOf (h : PyStr × PyStr) : PyStr :=
  "User: ".toList ++ h.1 ++ "\nAssistant: ".toList ++ h.2

/-- Rule 2 trigger: `"competitor" in lower and ("pie" in lower or
"chart" in lower)`. -/
def chartRulePred (lower : PyStr) : Bool :=
  pyContains lower sCompetitor && (pyContains lower sPie || pyContains lower sChart)

/-- Rule 3 trigger: `"swot" in lower and ("graph"/"radar"/"chart" in lower)`. -/
def swotRulePred (lower : PyStr) : Bool :=
  pyContains lower sSwot && (pyContains lower sGraph
    || pyContains lower sRadar || pyContains lower sChart)

/-- Rule 4 trigger: `"show" in lower and ("kpi"/"chart"/"graph" in lower)`. -/
def kpiRulePred (lower : PyStr) : Bool :=
  pyContains lower sShow && (pyContains lower sKpi
    || pyContains lower sChart || pyContains lower sGraph)

/-- Rule 5 message part: `"deep-dive" in lower or "dig deeper" in lower`. -/
def deepDivePred (lower : PyStr) : Bool :=
  pyContains lower sDeepDive || pyContains lower sDigDeeper

/-- One chat turn.  The result is the updated store, the reply string,
and the trace of external calls; `none` models an uncaught exception
(e.g. `plan.sources.get` when `sources` is `None`). -/
def chat_with_agent (env : Env) (store : Store) (req : ChatMessageRequest) :
    Option (Store × PyStr × List Effect) :=
  match lookupStore store req.conversation_id with
  | none => some (store, invalidConvReply, [])
  | some state => do
    let plan := state.plan
    let history := state.history
    let conflicts := state.conflicts_to_resolve
    let user_message := pyStrip req.message
    let lower := pyLower user_message
    -- Dynamic chart request logic (competitor pie / SWOT radar)
    let sel ←
      if chartRulePred lower then
        match plan.sources with
        | none => none
        | some m => some (objGetD m kCompetitorChartData JVal.jnull,
            sPieType, titleCompetitorShare)
      else if swotRulePred lower then
        match plan.sources with
        | none => none
        | some m => some (objGetD m kSwotRadarScores JVal.jnull,
            sRadarType, titleSwotScores)
      else some (JVal.jnull, [], [])
    let chart_data := sel.1
    let chart_type := sel.2.1
    let chart_title := sel.2.2
    if pyTruthy chart_data then
      let structured_reply := JVal.jobj
        [(kReplyType, JVal.jstr sChartRequest),
         (kChartType, JVal.jstr chart_type),
         (kData, chart_data),
         (kTitle, JVal.jstr chart_title),
         (kNarrative, JVal.jstr (chartNarrative chart_title))]
      let reply_json := json_dumps structured_reply
      let history := history ++ [(user_message, reply_json)]
      some (storeSet store req.conversation_id ⟨plan, history, conflicts⟩,
        reply_json, [])
    else if kpiRulePred lower then
      -- KPI / table chart request logic
      let reply :=
        if pyTruthy plan.kpi_summary then
          kpiReplyOf (json_dumps_indent2 plan.kpi_summary)
        else kpiUnavailableReply
      let history := history ++ [(user_message, reply)]
      some (storeSet store req.conversation_id ⟨plan, history, conflicts⟩,
        reply, [])
    else if pyTruthy conflicts && deepDivePred lower then
      -- Conflict resolution logic
      match conflicts with
      | JVal.jarr (conflict_to_resolve :: rest) => do
        let topicV ←
          match conflict_to_resolve with
          | JVal.jobj cf => some (objGetD cf kTopic (JVal.jstr topicDefault))
          | _ => none
        let topic := pyStrOf topicV
        let deep_dive_query :=
          plan.company_name ++ ' ' :: (topic ++ officialReportSuffix)
        let new_web_data := env.web_search deep_dive_query 3
        let resolution_prompt := resolutionPromptOf plan.company_name topic
          (match new_web_data with
           | some w => if w.isEmpty then noNewDataText else w
           | none => noNewDataText)
        let resolution_json := env.call_llm BASE_SYSTEM_PROMPT resolution_prompt
        let resolution_data := parse_llm_json resolution_json
        let reply_summaryV ←
          match resolution_data with
          | JVal.jobj rd =>
            some (objGetD rd kResolutionSummary (JVal.jstr resolutionDefault))
          | _ => none
        let reply := resolutionReplyOf topic (pyStrOf reply_summaryV)
          (natRepr rest.length)
        let history := history ++ [(user_message, reply)]
        some (storeSet store req.conversation_id
            ⟨plan, history, JVal.jarr rest⟩, reply,
          [Effect.webSearch deep_dive_query 3, Effect.llmCall])
      | _ => none
    else if pyContains lower sEdit && pyContains lower sSection then
      -- Selective plan editing logic
      let reply := editSectionReply
      let history := history ++ [(user_message, reply)]
      some (storeSet store req.conversation_id ⟨plan, history, conflicts⟩,
        reply, [])
    else
      -- General chat and follow-up logic
      let hist_text := pyJoin ("\n".toList) (history.map historyLineOf)
      let plan_summary_for_context := planContextOf plan
      let user_prompt := chatPromptOf plan_summary_for_context
        (if hist_text.isEmpty then noPriorTurns else hist_text) user_message
      let reply := env.call_llm BASE_SYSTEM_PROMPT user_prompt
      let history := history ++ [(user_message, reply)]
      some (storeSet store req.conversation_id ⟨plan, history, conflicts⟩,
        reply, [Effect.llmCall])

/-! ## `_sse` and `stream_research` -/

def sse (event data : PyStr) : PyStr :=
  "event: ".toList ++ event ++ "\ndata: ".toList
    ++ data.map (fun c => if c = '\n' then ' ' else c) ++ "\n\n".toList

def sStatus : PyStr := "status".toList
def sToken : PyStr := "token".toList
def sDoneEvent : PyStr := "done".toList

def stStart : PyStr :=
  "Understanding intent and preparing research pipeline.".toList
def stRagSearch : PyStr := "Searching internal RAG documents.".toList
def stRagDone (n : Nat) : PyStr :=
  "RAG search complete. ".toList ++ natRepr n ++ " internal chunks found.".toList
def stWebSearch : PyStr := "Running external web search.".toList
def stWebDone : PyStr := "Web search complete.".toList
def stWebFail : PyStr :=
  "Web search unavailable. Continuing with RAG and LLM synthesis.".toList
def stSynth : PyStr :=
  "Synthesizing account plan with LLM and checking for conflicts.".toList
def stSynthDone : PyStr :=
  "Research synthesis complete. Checking for data conflicts.".toList
def stReady : PyStr := "Plan ready. Conversation starting.".toList
def sTrue : PyStr := "true".toList

/-- The whole SSE frame sequence of one `stream_research` call, as a
function of the retrieval results and the model's streamed chunks. -/
def stream_research (rag_ctx : List PyStr) (web_text : Option PyStr)
    (chunks : List PyStr) : List PyStr :=
  [sse sStatus stStart,
   sse sStatus stRagSearch,
   sse sStatus (stRagDone rag_ctx.length),
   sse sStatus stWebSearch,
   sse sStatus (if optStrTruthy web_text then stWebDone else stWebFail),
   sse sStatus stSynth]
  ++ chunks.flatMap
      (fun chunk => if !(pyStrip chunk).isEmpty then [sse sToken chunk] else [])
  ++ [sse sStatus stSynthDone, sse sStatus stReady, sse sDoneEvent sTrue]

/-! ## Derived forms used by the theorems -/

/-- Iterate `chat_with_agent` over a list of messages on one
conversation, collecting each turn's external-call trace. -/
def chatMany (env : Env) (cid : PyStr) :
    List PyStr → Store → Option (Store × List (List Effect))
  | [], store => some (store, [])
  | m :: ms, store => do
    let r ← chat_with_agent env store ⟨cid, m⟩
    let rest ← chatMany env cid ms r.1
    some (rest.1, r.2.2 :: rest.2)

/-- `conflict.get("topic", "data discrepancy")` through the f-string. -/
def conflictTopicOf (c : JVal) : PyStr :=
  match c with
  | .jobj cf => pyStrOf (objGetD cf kTopic (JVal.jstr topicDefault))
  | _ => []

/-- The deep-dive query `f"{plan.company_name} {topic} official report"`. -/
def deepDiveQueryOf (company : PyStr) (c : JVal) : PyStr :=
  company ++ ' ' :: (conflictTopicOf c ++ officialReportSuffix)

/-- A fenced model reply: a leading fence line with an optional language
tag, the body, and a trailing line of `k` backticks. -/
def fenceOf (tag body : PyStr) (k : Nat) : PyStr :=
  '`' :: '`' :: '`' :: (tag ++ '\n' :: (body ++ '\n' :: List.replicate k '`'))

/-! ## Concrete fixtures for witnesses and counterexamples -/

def reqAcme : StartResearchRequest :=
  ⟨"Acme Corp".toList, "quick_summary".toList, none⟩

def rawNotJson : PyStr := "not json".toList

def emptyMeta : ResearchMetadata := ⟨[], [], [], [], false, decZero⟩

/-- A minimal plan shaped like the parse-failure fallback
(`sources = None`, no KPI data). -/
def basePlan : AccountPlan :=
  ⟨"Acme Corp".toList, "quick_summary".toList, [], [], [], [], [], [], [], [],
    [], [], [], JVal.jnull, none, emptyMeta, []⟩

def cid1 : PyStr := "cid1".toList

def envNull : Env := ⟨fun _ _ => none, fun _ _ => []⟩

/-- Store whose plan has `sources = None` (the fallback value). -/
def storeNoSources : Store := [(cid1, ⟨basePlan, [], JVal.jarr []⟩)]

/-- A plan whose `sources` mapping is present but holds no competitor
chart data, while KPI data is available. -/
def planKpiOnly : AccountPlan :=
  { basePlan with
    sources := some [(kSwotRadarScores, JVal.jnull),
      (kCompetitorChartData, JVal.jnull), (kPlanTable, JVal.jarr [])],
    kpi_summary := JVal.jarr [JVal.jobj
      [("name".toList, JVal.jstr ("Revenue".toList)),
       ("value".toList, JVal.jnum ⟨5, 0⟩)]] }

def storeKpiOnly : Store := [(cid1, ⟨planKpiOnly, [], JVal.jarr []⟩)]

/-- A plan with truthy competitor chart data. -/
def planWithChart : AccountPlan :=
  { basePlan with
    sources := some [(kSwotRadarScores, JVal.jnull),
      (kCompetitorChartData,
        JVal.jarr [JVal.jobj [("name".toList, JVal.jstr ("A".toList)),
          ("share_percent".toList, JVal.jnum ⟨100, 0⟩)]]),
      (kPlanTable, JVal.jarr [])] }

def storeWithChart : Store := [(cid1, ⟨planWithChart, [], JVal.jarr []⟩)]

def msgBothPhrases : PyStr := "competitor pie show kpi chart".toList

/-- Two pending conflicts, as parsed from a model reply. -/
def conflictA : JVal :=
  JVal.jobj [(kTopic, JVal.jstr ("revenue".toList)),
    ("details".toList, JVal.jstr ("differs".toList)),
    ("needs_deep_dive".toList, JVal.jbool true)]

def conflictB : JVal :=
  JVal.jobj [(kTopic, JVal.jstr ("headcount".toList)),
    ("details".toList, JVal.jstr ("stale".toList)),
    ("needs_deep_dive".toList, JVal.jbool true)]

def storeConflicts : Store :=
  [(cid1, ⟨basePlan, [], JVal.jarr [conflictA, conflictB]⟩)]

def msgDeepDive : PyStr := "please dig deeper on that".toList

/-- A message that contains "deep-dive" but also matches the earlier KPI
rule. -/
def msgDeepDiveKpi : PyStr := "show kpi chart then deep-dive".toList

def storeConflictsKpi : Store :=
  [(cid1, ⟨planKpiOnly, [], JVal.jarr [conflictA]⟩)]

/-- A model reply carrying every schema field, with two opportunity
bullets and a string-valued `plan_table`. -/
def rawAllFields : PyStr :=
  ("\x7b\"overview\": \"o\", \"company_profile\": \"cp\", \"market_analysis\": \"ma\", "
    ++ "\"financial_highlights\": \"fh\", \"product_portfolio\": \"pp\", "
    ++ "\"technology_stack\": \"ts\", \"competitors\": \"co\", \"swot\": \"sw\", "
    ++ "\"risks\": \"ri\", \"opportunities_points\": [\"op1\", \"op2\"], "
    ++ "\"plan_table\": \"T\", \"swot_radar_scores\": \x7b\"Strength\": 9\x7d, "
    ++ "\"competitor_chart_data\": [\x7b\"name\": \"A\", \"share_percent\": 100\x7d], "
    ++ "\"kpi_summary\": [\x7b\"name\": \"Revenue\", \"value\": 5\x7d], "
    ++ "\"conflicts\": [], \"confidence_score\": 0.9\x7d").toList

def jsonObjSimple : PyStr := "\x7b\"a\": 1\x7d".toList

/-- The plan that `start_research("Acme Corp", "quick_summary")` stores
when the model replies `not json` and no retrieval context is
available. -/
def acmeFallbackPlan : AccountPlan :=
  (build_account_plan_from_llm rawNotJson reqAcme [] none []).get (by rfl)

/-- The mapping `json.loads` extracts from `rawAllFields` (insertion
order; every schema field present). -/
def kvsAllFields : List (PyStr × JVal) :=
  [(kOverview, JVal.jstr ("o".toList)),
   (kCompanyProfile, JVal.jstr ("cp".toList)),
   (kMarketAnalysis, JVal.jstr ("ma".toList)),
   (kFinancialHighlights, JVal.jstr ("fh".toList)),
   (kProductPortfolio, JVal.jstr ("pp".toList)),
   (kTechnologyStack, JVal.jstr ("ts".toList)),
   (kCompetitors, JVal.jstr ("co".toList)),
   (kSwot, JVal.jstr ("sw".toList)),
   (kRisks, JVal.jstr ("ri".toList)),
   (kOpportunitiesPoints,
     JVal.jarr [JVal.jstr ("op1".toList), JVal.jstr ("op2".toList)]),
   (kPlanTable, JVal.jstr ("T".toList)),
   (kSwotRadarScores, JVal.jobj [("Strength".toList, JVal.jnum ⟨9, 0⟩)]),
   (kCompetitorChartData, JVal.jarr [JVal.jobj
     [("name".toList, JVal.jstr ("A".toList)),
      ("share_percent".toList, JVal.jnum ⟨100, 0⟩)]]),
   (kKpiSummary, JVal.jarr [JVal.jobj
     [("name".toList, JVal.jstr ("Revenue".toList)),
      ("value".toList, JVal.jnum ⟨5, 0⟩)]]),
   (kConflicts, JVal.jarr []),
   (kConfidenceScore, JVal.jnum ⟨9, -1⟩)]

/-- A store holding one conversation whose plan has a single section
(the fallback plan's "Full Research Output"). -/
def storeEdit : Store := [(cid1, ⟨acmeFallbackPlan, [], JVal.jarr []⟩)]

/-! # Helper lemmas -/

theorem mem_of_mem_dropWhile {p : Char → Bool} {l : PyStr} {c : Char}
    (h : c ∈ l.dropWhile p) : c ∈ l := by
  induction l with
  | nil => simp at h
  | cons a t ih =>
    rw [List.dropWhile_cons] at h
    split at h
    · exact List.mem_cons_of_mem _ (ih h)
    · exact h

theorem mem_of_mem_pyRStripBy {p : Char → Bool} {l : PyStr} {c : Char}
    (h : c ∈ pyRStripBy p l) : c ∈ l := by
  unfold pyRStripBy at h
  rw [List.mem_reverse] at h
  exact List.mem_reverse.mp (mem_of_mem_dropWhile h)

theorem mem_of_mem_pyStrip {l : PyStr} {c : Char} (h : c ∈ pyStrip l) : c ∈ l :=
  mem_of_mem_dropWhile (mem_of_mem_pyRStripBy h)

theorem mem_splitOnceNl_snd {l a b : PyStr} (h : splitOnceNl l = (a, some b))
    {c : Char} (hc : c ∈ b) : c ∈ l := by
  induction l generalizing a with
  | nil => simp [splitOnceNl] at h
  | cons d t ih =>
    simp only [splitOnceNl] at h
    split at h
    · injection h with _h1 h2
      injection h2 with h2
      subst h2
      exact List.mem_cons_of_mem _ hc
    · injection h with _h1 h2
      refine List.mem_cons_of_mem _ (ih (a := (splitOnceNl t).1) ?_)
      rw [← h2]

theorem mem_strip_code_fences {raw : PyStr} {c : Char}
    (h : c ∈ strip_code_fences raw) : c ∈ raw := by
  dsimp only [strip_code_fences] at h
  split at h
  · split at h
    · rename_i rest heq
      split at h
      · refine mem_of_mem_pyStrip (mem_splitOnceNl_snd
          (a := (splitOnceNl (pyStrip raw)).1) ?_
          (mem_of_mem_pyRStripBy (mem_of_mem_pyStrip h)))
        rw [← heq]
      · exact mem_of_mem_pyStrip (mem_of_mem_pyRStripBy (mem_of_mem_pyStrip h))
    · exact mem_of_mem_pyStrip (mem_of_mem_pyRStripBy (mem_of_mem_pyStrip h))
  · exact mem_of_mem_pyStrip (mem_of_mem_pyStrip h)

theorem pyFindChar_eq_none {c : Char} {l : PyStr} (h : c ∉ l) :
    pyFindChar c l = none := by
  induction l with
  | nil => rfl
  | cons d t ih =>
    rw [pyFindChar, if_neg, ih (fun hm => h (List.mem_cons_of_mem _ hm))]
    · rfl
    · intro hdc
      exact h (hdc ▸ List.mem_cons_self d t)

theorem optionBind_eq_some {α β : Type} {x : Option α} {f : α → Option β}
    {b : β} : (x >>= f) = some b ↔ ∃ a, x = some a ∧ f a = some b :=
  Option.bind_eq_some

theorem optionSomeBind {α β : Type} (a : α) (f : α → Option β) :
    (some a >>= f) = f a := rfl

/-! # Claim C1 -/

/-- C1 (corrected): for raw text containing no `{` and no `}`, the
parser returns whatever `json.loads` decodes from the cleaned text — the
empty mapping only when that decode also fails.  It never raises (it is
a total function into `JVal`). -/
theorem c1_parse_no_braces (raw : PyStr)
    (h1 : '{' ∉ raw) (_h2 : '}' ∉ raw) :
    parse_llm_json raw
      = (json_loads (strip_code_fences raw)).getD (JVal.jobj []) := by
  have hf : pyFindChar '{' (strip_code_fences raw) = none :=
    pyFindChar_eq_none (fun hc => h1 (mem_strip_code_fences hc))
  unfold parse_llm_json
  cases hj : json_loads (strip_code_fences raw) with
  | some v => simp [hj]
  | none => simp [hj, hf]

/-- C1 counterexample: `"42"` has no braces, yet the parser returns the
number `42`, not the empty mapping (and not a mapping at all). -/
theorem c1_counterexample :
    ('{' ∉ ("42".toList)) ∧ ('}' ∉ ("42".toList)) ∧
    parse_llm_json ("42".toList) = JVal.jnum ⟨42, 0⟩ ∧
    JVal.jnum ⟨42, 0⟩ ≠ JVal.jobj [] :=
  ⟨by decide, by decide, by rfl, fun h => JVal.noConfusion h⟩

/-- C1 witness: at the brace-free input `"not json"` the hypotheses of
`c1_parse_no_braces` hold, and the decode fails, so the parser returns
the empty mapping. -/
theorem c1_witness :
    ('{' ∉ rawNotJson) ∧ ('}' ∉ rawNotJson) ∧
    parse_llm_json rawNotJson
      = (json_loads (strip_code_fences rawNotJson)).getD (JVal.jobj []) ∧
    (json_loads (strip_code_fences rawNotJson)).getD (JVal.jobj [])
      = JVal.jobj [] :=
  ⟨by decide, by decide,
    c1_parse_no_braces rawNotJson (by decide) (by decide), by rfl⟩

/-! # Claim C2 -/

/-- C2 (confirmed): whenever the parse of the raw model text yields the
empty mapping, the builder returns (without raising) the fallback plan:
confidence 0.0, conflicts-detected false, exactly one section titled
"Full Research Output" holding the full raw text, empty narrative
fields, and a non-empty overview of the company name followed by the
700-character prefix of the raw text. -/
theorem c2_fallback_plan (raw : PyStr) (req : StartResearchRequest)
    (rag_ctx : List PyStr) (web_text : Option PyStr) (now : PyStr)
    (h : parse_llm_json raw = JVal.jobj []) :
    (build_account_plan_from_llm raw req rag_ctx web_text now).map
        (·.metadata.confidence_score) = some decZero ∧
    (build_account_plan_from_llm raw req rag_ctx web_text now).map
        (·.metadata.conflicts_detected) = some false ∧
    (build_account_plan_from_llm raw req rag_ctx web_text now).map
        (·.sections) = some [⟨titleFullResearchOutput, raw⟩] ∧
    (build_account_plan_from_llm raw req rag_ctx web_text now).map
        (fun p => [p.company_profile, p.market_analysis,
          p.financial_highlights, p.product_portfolio, p.technology_stack,
          p.competitors, p.swot, p.opportunities, p.risks,
          p.account_plan_30_60_90]) = some [[], [], [], [], [], [], [], [], [], []] ∧
    (build_account_plan_from_llm raw req rag_ctx web_text now).map
        (·.overview) = some (req.company_name ++ snapshotSep ++ raw.take 700) ∧
    req.company_name ++ snapshotSep ++ raw.take 700 ≠ [] := by
  have hb : build_account_plan_from_llm raw req rag_ctx web_text now
      = some ⟨req.company_name, req.depth,
          req.company_name ++ snapshotSep ++ raw.take 700,
          [], [], [], [], [], [], [], [], [], [], JVal.jnull, none,
          ⟨now, req.depth,
            (if !rag_ctx.isEmpty then [srcRag] else [])
              ++ (if optStrTruthy web_text then [srcWeb] else []),
            build_steps rag_ctx web_text, false, decZero⟩,
          [⟨titleFullResearchOutput, raw⟩]⟩ := by
    unfold build_account_plan_from_llm
    rw [h]
    rfl
  refine ⟨?_, ?_, ?_, ?_, ?_, ?_⟩
  · rw [hb]; rfl
  · rw [hb]; rfl
  · rw [hb]; rfl
  · rw [hb]; rfl
  · rw [hb]; rfl
  · intro hov
    rw [List.append_eq_nil, List.append_eq_nil] at hov
    exact absurd hov.1.2 (by decide)

/-- C2 witness: the scenario of the claim — company "Acme Corp", depth
"quick_summary", model reply `not json`. -/
theorem c2_witness :
    parse_llm_json rawNotJson = JVal.jobj [] ∧
    ((build_account_plan_from_llm rawNotJson reqAcme [] none []).map
        (·.metadata.confidence_score) = some decZero ∧
      (build_account_plan_from_llm rawNotJson reqAcme [] none []).map
        (·.metadata.conflicts_detected) = some false ∧
      (build_account_plan_from_llm rawNotJson reqAcme [] none []).map
        (·.sections) = some [⟨titleFullResearchOutput, rawNotJson⟩] ∧
      (build_account_plan_from_llm rawNotJson reqAcme [] none []).map
        (fun p => [p.company_profile, p.market_analysis,
          p.financial_highlights, p.product_portfolio, p.technology_stack,
          p.competitors, p.swot, p.opportunities, p.risks,
          p.account_plan_30_60_90]) = some [[], [], [], [], [], [], [], [], [], []] ∧
      (build_account_plan_from_llm rawNotJson reqAcme [] none []).map
        (·.overview)
        = some (reqAcme.company_name ++ snapshotSep ++ rawNotJson.take 700) ∧
      reqAcme.company_name ++ snapshotSep ++ rawNotJson.take 700 ≠ []) :=
  ⟨by rfl, c2_fallback_plan rawNotJson reqAcme [] none [] (by rfl)⟩

/-! # Claim C5 -/

/-- C5 (corrected): `sources_used` is `["rag"?] ++ ["web"?]` on the
parse-failure fallback path — "llm" is absent there — and
`["rag"?] ++ ["web"?] ++ ["llm"]` on the normal structured path. -/
theorem c5_sources_used (raw : PyStr) (req : StartResearchRequest)
    (rag_ctx : List PyStr) (web_text : Option PyStr) (now : PyStr)
    (p : AccountPlan)
    (h : build_account_plan_from_llm raw req rag_ctx web_text now = some p) :
    p.metadata.sources_used
      = (if !rag_ctx.isEmpty then [srcRag] else [])
        ++ (if optStrTruthy web_text then [srcWeb] else [])
        ++ (if pyTruthy (parse_llm_json raw) then [srcLlm] else []) := by
  simp only [build_account_plan_from_llm] at h
  split at h
  · -- fallback path
    rename_i hcond
    have ht : pyTruthy (parse_llm_json raw) = false := by
      cases hp : pyTruthy (parse_llm_json raw)
      · rfl
      · rw [hp] at hcond; exact absurd hcond (by decide)
    rw [Option.some.injEq] at h
    subst h
    rw [ht]
    simp
  · -- normal path
    rename_i hcond
    have ht : pyTruthy (parse_llm_json raw) = true := by
      cases hp : pyTruthy (parse_llm_json raw)
      · rw [hp] at hcond; exact absurd (by decide) hcond
      · rfl
    rw [ht]
    split at h
    case _ kvs heq =>
      rw [optionBind_eq_some] at h
      obtain ⟨cp, -, h⟩ := h
      rw [optionBind_eq_some] at h
      obtain ⟨ma, -, h⟩ := h
      rw [optionBind_eq_some] at h
      obtain ⟨fh, -, h⟩ := h
      rw [optionBind_eq_some] at h
      obtain ⟨pp, -, h⟩ := h
      rw [optionBind_eq_some] at h
      obtain ⟨ts, -, h⟩ := h
      rw [optionBind_eq_some] at h
      obtain ⟨co, -, h⟩ := h
      rw [optionBind_eq_some] at h
      obtain ⟨sw, -, h⟩ := h
      rw [optionBind_eq_some] at h
      obtain ⟨ri, -, h⟩ := h
      rw [optionBind_eq_some] at h
      obtain ⟨ops, -, h⟩ := h
      split at h
      all_goals
        rw [optionBind_eq_some] at h
        obtain ⟨ov, -, h⟩ := h
        split at h
        · rw [Option.some.injEq] at h
          subst h
          rfl
        · exact absurd h (by simp)
    all_goals exact absurd h (by simp)

/-- C5 counterexample: on the fallback path with no retrieval context,
`sources_used` is empty — in particular "llm" is not a member, refuting
the claim that "llm" is always present. -/
theorem c5_counterexample :
    (build_account_plan_from_llm rawNotJson reqAcme [] none []).map
      (·.metadata.sources_used) = some [] ∧
    (build_account_plan_from_llm rawNotJson reqAcme [] none []).map
      (fun p => p.metadata.sources_used.contains srcLlm) = some false :=
  ⟨by rfl, by rfl⟩

/-- C5 witness: the amended characterisation applied at the concrete
fallback instance. -/
theorem c5_witness :
    build_account_plan_from_llm rawNotJson reqAcme [] none []
      = some acmeFallbackPlan ∧
    acmeFallbackPlan.metadata.sources_used
      = (if !(([] : List PyStr)).isEmpty then [srcRag] else [])
        ++ (if optStrTruthy none then [srcWeb] else [])
        ++ (if pyTruthy (parse_llm_json rawNotJson) then [srcLlm] else []) :=
  ⟨by rfl, c5_sources_used rawNotJson reqAcme [] none [] acmeFallbackPlan (by rfl)⟩

/-! # Claim C7 -/

theorem objLookup_ne_nil {kvs : List (PyStr × JVal)} {k : PyStr} {v : JVal}
    (h : objLookup kvs k = some v) : kvs ≠ [] := by
  intro hk
  subst hk
  simp [objLookup] at h

theorem mapM_asStrElem (ops : List PyStr) :
    List.mapM (fun v => match v with | JVal.jstr s => some s | _ => none)
      (ops.map JVal.jstr) = some ops := by
  induction ops with
  | nil => rfl
  | cons a t ih =>
    rw [List.map_cons, List.mapM_cons, ih]
    rfl

theorem joinElems_map_jstr (ops : List PyStr) :
    joinElems (JVal.jarr (ops.map JVal.jstr)) = some ops :=
  mapM_asStrElem ops

/-- C7 (corrected): with every schema field present, the builder
returns ten display sections in the fixed order; the first seven and
Risks carry the input fields verbatim, while Opportunities carries the
double-newline join of `opportunities_points` and the 30-60-90 section
carries a fixed placeholder sentence rather than the `plan_table`
field. -/
theorem c7_sections (raw : PyStr) (req : StartResearchRequest)
    (rag_ctx : List PyStr) (web_text : Option PyStr) (now : PyStr)
    (kvs : List (PyStr × JVal))
    (ov cp ma fh pp ts co sw ri : PyStr) (ops : List PyStr)
    (vpt vsr vcc vkpi vcf vcs : JVal)
    (hd : parse_llm_json raw = JVal.jobj kvs)
    (hov : objLookup kvs kOverview = some (JVal.jstr ov))
    (hcp : objLookup kvs kCompanyProfile = some (JVal.jstr cp))
    (hma : objLookup kvs kMarketAnalysis = some (JVal.jstr ma))
    (hfh : objLookup kvs kFinancialHighlights = some (JVal.jstr fh))
    (hpp : objLookup kvs kProductPortfolio = some (JVal.jstr pp))
    (hts : objLookup kvs kTechnologyStack = some (JVal.jstr ts))
    (hco : objLookup kvs kCompetitors = some (JVal.jstr co))
    (hsw : objLookup kvs kSwot = some (JVal.jstr sw))
    (hri : objLookup kvs kRisks = some (JVal.jstr ri))
    (hops : objLookup kvs kOpportunitiesPoints
      = some (JVal.jarr (ops.map JVal.jstr)))
    (hpt : objLookup kvs kPlanTable = some vpt)
    (hsr : objLookup kvs kSwotRadarScores = some vsr)
    (hcc : objLookup kvs kCompetitorChartData = some vcc)
    (hkpi : objLookup kvs kKpiSummary = some vkpi)
    (hkpiOk : kpiOk vkpi = true)
    (hcf : objLookup kvs kConflicts = some vcf)
    (hcs : objLookup kvs kConfidenceScore = some vcs) :
    (build_account_plan_from_llm raw req rag_ctx web_text now).map (·.sections)
      = some [⟨titleCompanyProfile, cp⟩, ⟨titleMarketAnalysis, ma⟩,
          ⟨titleFinancialHighlights, fh⟩, ⟨titleProductPortfolio, pp⟩,
          ⟨titleTechnologyStack, ts⟩, ⟨titleCompetitors, co⟩,
          ⟨titleSwotAnalysis, sw⟩, ⟨titleOpportunities, pyJoin nnSep ops⟩,
          ⟨titleRisks, ri⟩, ⟨titlePlan306090, planSummaryText⟩] := by
  have hne : pyTruthy (JVal.jobj kvs) = true := by
    cases hk : kvs with
    | nil => exact absurd hk (objLookup_ne_nil hov)
    | cons a t => rfl
  simp only [build_account_plan_from_llm]
  rw [hd, hne]
  rw [if_neg (by decide : ¬((!true) = true))]
  simp only [objGetD, hov, hcp, hma, hfh, hpp, hts, hco, hsw, hri, hops,
    hpt, hsr, hcc, hkpi, hcf, hcs, Option.getD_some]
  simp only [asStr, optionSomeBind, joinElems_map_jstr]
  cases hb : pyTruthy (JVal.jstr ov) <;>
    simp [hb, hkpiOk, optionSomeBind]

/-- C7 counterexample: with all fields present, the 30-60-90 Day Plan
section's content is the fixed placeholder, which differs from the
`plan_table` input field — so not every section content equals the
corresponding input verbatim (the Opportunities content is likewise a
join, `"op1\n\nop2"`). -/
theorem c7_counterexample :
    (build_account_plan_from_llm rawAllFields reqAcme [] none []).map
        (fun p => p.sections.map (·.content))
      = some ["cp".toList, "ma".toList, "fh".toList, "pp".toList, "ts".toList,
          "co".toList, "sw".toList, "op1\n\nop2".toList, "ri".toList,
          planSummaryText] ∧
    (match parse_llm_json rawAllFields with
      | JVal.jobj kvs => objLookup kvs kPlanTable
      | _ => none) = some (JVal.jstr ("T".toList)) ∧
    planSummaryText ≠ "T".toList ∧
    (match parse_llm_json rawAllFields with
      | JVal.jobj kvs => objLookup kvs kOpportunitiesPoints
      | _ => none)
      = some (JVal.jarr [JVal.jstr ("op1".toList), JVal.jstr ("op2".toList)]) :=
  ⟨by rfl, by rfl, by decide, by rfl⟩

/-- C7 witness: the amended ten-section characterisation applied at the
concrete all-fields reply. -/
theorem c7_witness :
    parse_llm_json rawAllFields = JVal.jobj kvsAllFields ∧
    (build_account_plan_from_llm rawAllFields reqAcme [] none []).map
        (·.sections)
      = some [⟨titleCompanyProfile, "cp".toList⟩,
          ⟨titleMarketAnalysis, "ma".toList⟩,
          ⟨titleFinancialHighlights, "fh".toList⟩,
          ⟨titleProductPortfolio, "pp".toList⟩,
          ⟨titleTechnologyStack, "ts".toList⟩,
          ⟨titleCompetitors, "co".toList⟩,
          ⟨titleSwotAnalysis, "sw".toList⟩,
          ⟨titleOpportunities, pyJoin nnSep ["op1".toList, "op2".toList]⟩,
          ⟨titleRisks, "ri".toList⟩,
          ⟨titlePlan306090, planSummaryText⟩] :=
  ⟨by rfl,
    c7_sections rawAllFields reqAcme [] none [] kvsAllFields
      ("o".toList) ("cp".toList) ("ma".toList) ("fh".toList) ("pp".toList)
      ("ts".toList) ("co".toList) ("sw".toList) ("ri".toList)
      ["op1".toList, "op2".toList]
      (JVal.jstr ("T".toList))
      (JVal.jobj [("Strength".toList, JVal.jnum ⟨9, 0⟩)])
      (JVal.jarr [JVal.jobj [("name".toList, JVal.jstr ("A".toList)),
        ("share_percent".toList, JVal.jnum ⟨100, 0⟩)]])
      (JVal.jarr [JVal.jobj [("name".toList, JVal.jstr ("Revenue".toList)),
        ("value".toList, JVal.jnum ⟨5, 0⟩)]])
      (JVal.jarr []) (JVal.jnum ⟨9, -1⟩)
      (by rfl) (by rfl) (by rfl) (by rfl) (by rfl) (by rfl) (by rfl) (by rfl)
      (by rfl) (by rfl) (by rfl) (by rfl) (by rfl) (by rfl) (by rfl) (by rfl)
      (by rfl) (by rfl)⟩

/-! # Claim C6 -/

theorem replaceFirstSection_eq_none {sections : List CompanySection}
    {title content : PyStr} (h : ∀ s ∈ sections, s.title ≠ title) :
    replaceFirstSection sections title content = none := by
  induction sections with
  | nil => rfl
  | cons a t ih =>
    rw [replaceFirstSection, if_neg (h a (List.mem_cons_self a t)),
      ih (fun s hs => h s (List.mem_cons_of_mem a hs))]
    rfl

theorem replaceFirstSection_eq_some {pre : List CompanySection}
    {sec : CompanySection} {suf : List CompanySection} {title content : PyStr}
    (hsec : sec.title = title) (hpre : ∀ s ∈ pre, s.title ≠ title) :
    replaceFirstSection (pre ++ sec :: suf) title content
      = some (pre ++ ⟨title, content⟩ :: suf) := by
  induction pre with
  | nil =>
    rw [List.nil_append, replaceFirstSection, if_pos hsec, hsec,
      List.nil_append]
  | cons a t ih =>
    rw [List.cons_append, replaceFirstSection,
      if_neg (hpre a (List.mem_cons_self a t)),
      ih (fun s hs => hpre s (List.mem_cons_of_mem a hs))]
    rfl

theorem planSetattr_sections (p : AccountPlan) (attr v : PyStr) :
    (planSetattr p attr v).sections = p.sections := by
  unfold planSetattr
  by_cases h0 : attr = "company_name".toList
  · rw [if_pos h0]
  rw [if_neg h0]
  by_cases h1 : attr = "depth".toList
  · rw [if_pos h1]
  rw [if_neg h1]
  by_cases h2 : attr = "overview".toList
  · rw [if_pos h2]
  rw [if_neg h2]
  by_cases h3 : attr = "company_profile".toList
  · rw [if_pos h3]
  rw [if_neg h3]
  by_cases h4 : attr = "market_analysis".toList
  · rw [if_pos h4]
  rw [if_neg h4]
  by_cases h5 : attr = "financial_highlights".toList
  · rw [if_pos h5]
  rw [if_neg h5]
  by_cases h6 : attr = "product_portfolio".toList
  · rw [if_pos h6]
  rw [if_neg h6]
  by_cases h7 : attr = "technology_stack".toList
  · rw [if_pos h7]
  rw [if_neg h7]
  by_cases h8 : attr = "competitors".toList
  · rw [if_pos h8]
  rw [if_neg h8]
  by_cases h9 : attr = "swot".toList
  · rw [if_pos h9]
  rw [if_neg h9]
  by_cases h10 : attr = "opportunities".toList
  · rw [if_pos h10]
  rw [if_neg h10]
  by_cases h11 : attr = "risks".toList
  · rw [if_pos h11]
  rw [if_neg h11]
  by_cases h12 : attr = "account_plan_30_60_90".toList
  · rw [if_pos h12]
  rw [if_neg h12]
  by_cases h13 : attr = "kpi_summary".toList
  · rw [if_pos h13]
  rw [if_neg h13]

/-- C6 (confirmed): `update_account_plan_section` returns failure and
leaves the store unchanged on an unknown conversation id or a known id
with no matching section title; on a known id whose plan has a matching
section (first match), it replaces that section's content, appends
exactly one audit turn, leaves the conflict queue alone, and returns
success. -/
theorem c6_edit_section (store : Store) (cid title content : PyStr) :
    (lookupStore store cid = none →
      update_account_plan_section store cid title content = (store, false)) ∧
    (∀ st, lookupStore store cid = some st →
      ((∀ s ∈ st.plan.sections, s.title ≠ title) →
        update_account_plan_section store cid title content = (store, false)) ∧
      (∀ pre sec suf, st.plan.sections = pre ++ sec :: suf →
        sec.title = title → (∀ s ∈ pre, s.title ≠ title) →
        ∃ plan', update_account_plan_section store cid title content
            = (storeSet store cid ⟨plan',
                st.history ++ [(auditUserTurn title, auditAssistantTurn title)],
                st.conflicts_to_resolve⟩, true) ∧
          plan'.sections = pre ++ ⟨title, content⟩ :: suf)) := by
  constructor
  · intro hnone
    unfold update_account_plan_section
    rw [hnone]
  · intro st hsome
    constructor
    · intro hno
      unfold update_account_plan_section
      rw [hsome]
      simp only [replaceFirstSection_eq_none hno]
    · intro pre sec suf hsecs hsec hpre
      unfold update_account_plan_section
      rw [hsome]
      simp only [hsecs, replaceFirstSection_eq_some hsec hpre]
      refine ⟨_, rfl, ?_⟩
      split
      · rw [planSetattr_sections]
      · rfl

/-- C6 witness: editing the single "Full Research Output" section of a
stored fallback plan succeeds, rewrites that section, and appends one
audit turn. -/
theorem c6_witness :
    ∃ plan', update_account_plan_section storeEdit cid1
        titleFullResearchOutput ("new".toList)
      = (storeSet storeEdit cid1 ⟨plan',
          [] ++ [(auditUserTurn titleFullResearchOutput,
            auditAssistantTurn titleFullResearchOutput)], JVal.jarr []⟩, true) ∧
      plan'.sections = [] ++ ⟨titleFullResearchOutput, "new".toList⟩ :: [] :=
  ((c6_edit_section storeEdit cid1 titleFullResearchOutput
      ("new".toList)).2 ⟨acmeFallbackPlan, [], JVal.jarr []⟩ (by rfl)).2
    [] ⟨titleFullResearchOutput, rawNotJson⟩ [] (by rfl) (by rfl)
    (fun s hs => absurd hs (List.not_mem_nil s))

/-! # Claim C4 -/

theorem optionNoneBind {α β : Type} (f : α → Option β) :
    ((none : Option α) >>= f) = none := rfl

/-- C4 (confirmed): when the stored plan's `sources` is `None` (as the
parse-failure fallback stores), a message matching the competitor-chart
or SWOT-chart rule makes `chat_with_agent` evaluate `plan.sources.get`,
which raises `AttributeError` instead of returning a response. -/
theorem c4_sources_none_raises (env : Env) (store : Store)
    (req : ChatMessageRequest) (st : ConvState)
    (hlook : lookupStore store req.conversation_id = some st)
    (hsrc : st.plan.sources = none)
    (hmsg : chartRulePred (pyLower (pyStrip req.message)) = true
      ∨ swotRulePred (pyLower (pyStrip req.message)) = true) :
    chat_with_agent env store req = none := by
  unfold chat_with_agent
  rw [hlook]
  dsimp only
  cases hc : chartRulePred (pyLower (pyStrip req.message)) with
  | true =>
    rw [hsrc]
    rfl
  | false =>
    have hs : swotRulePred (pyLower (pyStrip req.message)) = true := by
      cases hmsg with
      | inl h => rw [hc] at h; exact absurd h (by decide)
      | inr h => exact h
    rw [hs, hsrc]
    rfl

/-- C4 witness: the fallback-shaped conversation crashes on
"competitor pie". -/
theorem c4_witness :
    chat_with_agent envNull storeNoSources ⟨cid1, "competitor pie".toList⟩
      = none :=
  c4_sources_none_raises envNull storeNoSources
    ⟨cid1, "competitor pie".toList⟩ ⟨basePlan, [], JVal.jarr []⟩
    (by rfl) (by rfl) (Or.inl (by rfl))

/-! # Claim C3 -/

theorem pyContains_iff {hay needle : PyStr} :
    pyContains hay needle = true ↔ needle <:+: hay := by
  induction hay with
  | nil =>
    rw [pyContains]
    by_cases hp : needle.isPrefixOf ([] : PyStr)
    · rw [if_pos hp]
      rw [List.isPrefixOf_iff_prefix] at hp
      exact iff_of_true rfl hp.isInfix
    · rw [if_neg hp]
      refine iff_of_false (by decide) (fun hInf => hp ?_)
      obtain ⟨s, t, hst⟩ := hInf
      have hl := congrArg List.length hst
      simp only [List.length_append, List.length_nil] at hl
      have hn : needle = [] := List.eq_nil_of_length_eq_zero (by omega)
      rw [List.isPrefixOf_iff_prefix, hn]
  | cons a t ih =>
    rw [pyContains]
    by_cases hp : needle.isPrefixOf (a :: t)
    · rw [if_pos hp]
      rw [List.isPrefixOf_iff_prefix] at hp
      exact iff_of_true rfl hp.isInfix
    · rw [if_neg hp]
      show pyContains t needle = true ↔ _
      rw [ih, List.infix_cons_iff]
      constructor
      · exact Or.inr
      · intro h
        cases h with
        | inl hpre => exact absurd (List.isPrefixOf_iff_prefix.mpr hpre) hp
        | inr hinf => exact hinf

theorem pyContains_of_infix {hay n1 n2 : PyStr}
    (h : pyContains hay n1 = true) (hsub : n2 <:+: n1) :
    pyContains hay n2 = true :=
  pyContains_iff.mpr (hsub.trans (pyContains_iff.mp h))

/-- C3 (corrected): a message whose lower-cased text contains both
"competitor pie" and "show kpi chart" is handled by the competitor-chart
rule — provided the plan's sources mapping holds truthy competitor chart
data; the serialized pie chart-request JSON is both returned and stored
verbatim as the assistant turn. -/
theorem c3_chart_precedence (env : Env) (store : Store)
    (req : ChatMessageRequest) (st : ConvState) (m : List (PyStr × JVal))
    (hlook : lookupStore store req.conversation_id = some st)
    (hsrc : st.plan.sources = some m)
    (hcd : pyTruthy (objGetD m kCompetitorChartData JVal.jnull) = true)
    (h1 : pyContains (pyLower (pyStrip req.message))
      ("competitor pie".toList) = true)
    (_h2 : pyContains (pyLower (pyStrip req.message))
      ("show kpi chart".toList) = true) :
    chat_with_agent env store req
      = some (storeSet store req.conversation_id
          ⟨st.plan,
           st.history ++ [(pyStrip req.message, json_dumps (JVal.jobj
             [(kReplyType, JVal.jstr sChartRequest),
              (kChartType, JVal.jstr sPieType),
              (kData, objGetD m kCompetitorChartData JVal.jnull),
              (kTitle, JVal.jstr titleCompetitorShare),
              (kNarrative, JVal.jstr (chartNarrative titleCompetitorShare))]))],
           st.conflicts_to_resolve⟩,
          json_dumps (JVal.jobj
             [(kReplyType, JVal.jstr sChartRequest),
              (kChartType, JVal.jstr sPieType),
              (kData, objGetD m kCompetitorChartData JVal.jnull),
              (kTitle, JVal.jstr titleCompetitorShare),
              (kNarrative, JVal.jstr (chartNarrative titleCompetitorShare))]),
          []) := by
  have hcomp : pyContains (pyLower (pyStrip req.message)) sCompetitor = true :=
    pyContains_of_infix h1 ⟨[], " pie".toList, rfl⟩
  have hpie : pyContains (pyLower (pyStrip req.message)) sPie = true :=
    pyContains_of_infix h1 ⟨"competitor ".toList, [], rfl⟩
  have hchart : chartRulePred (pyLower (pyStrip req.message)) = true := by
    rw [chartRulePred, hcomp, hpie]
    rfl
  unfold chat_with_agent
  rw [hlook]
  dsimp only
  rw [if_pos hchart, hsrc]
  dsimp only
  rw [optionSomeBind]
  dsimp only
  rw [if_pos hcd]

/-- C3 counterexample: in a stored conversation whose competitor chart
data is `None` (but whose KPI data exists), the same both-phrases
message falls through to the KPI rule: the reply is the KPI dump, not a
serialized chart-request object (which would start with a brace). -/
theorem c3_counterexample :
    pyContains (pyLower (pyStrip msgBothPhrases))
      ("competitor pie".toList) = true ∧
    pyContains (pyLower (pyStrip msgBothPhrases))
      ("show kpi chart".toList) = true ∧
    (chat_with_agent envNull storeKpiOnly ⟨cid1, msgBothPhrases⟩).map
      (fun r => ("Here is the structured KPI data".toList).isPrefixOf r.2.1)
      = some true ∧
    (chat_with_agent envNull storeKpiOnly ⟨cid1, msgBothPhrases⟩).map
      (fun r => ("\x7b".toList).isPrefixOf r.2.1) = some false :=
  ⟨by rfl, by rfl, by rfl, by rfl⟩

/-- C3 witness: with truthy competitor chart data stored, the
both-phrases message gets the serialized pie payload. -/
theorem c3_witness :
    chat_with_agent envNull storeWithChart ⟨cid1, msgBothPhrases⟩
      = some (storeSet storeWithChart cid1
          ⟨planWithChart,
           [] ++ [(pyStrip msgBothPhrases, json_dumps (JVal.jobj
             [(kReplyType, JVal.jstr sChartRequest),
              (kChartType, JVal.jstr sPieType),
              (kData, objGetD [(kSwotRadarScores, JVal.jnull),
                (kCompetitorChartData,
                  JVal.jarr [JVal.jobj [("name".toList, JVal.jstr ("A".toList)),
                    ("share_percent".toList, JVal.jnum ⟨100, 0⟩)]]),
                (kPlanTable, JVal.jarr [])] kCompetitorChartData JVal.jnull),
              (kTitle, JVal.jstr titleCompetitorShare),
              (kNarrative, JVal.jstr (chartNarrative titleCompetitorShare))]))],
           JVal.jarr []⟩,
          json_dumps (JVal.jobj
             [(kReplyType, JVal.jstr sChartRequest),
              (kChartType, JVal.jstr sPieType),
              (kData, objGetD [(kSwotRadarScores, JVal.jnull),
                (kCompetitorChartData,
                  JVal.jarr [JVal.jobj [("name".toList, JVal.jstr ("A".toList)),
                    ("share_percent".toList, JVal.jnum ⟨100, 0⟩)]]),
                (kPlanTable, JVal.jarr [])] kCompetitorChartData JVal.jnull),
              (kTitle, JVal.jstr titleCompetitorShare),
              (kNarrative, JVal.jstr (chartNarrative titleCompetitorShare))]),
          []) :=
  c3_chart_precedence envNull storeWithChart ⟨cid1, msgBothPhrases⟩
    ⟨planWithChart, [], JVal.jarr []⟩
    [(kSwotRadarScores, JVal.jnull),
     (kCompetitorChartData,
       JVal.jarr [JVal.jobj [("name".toList, JVal.jstr ("A".toList)),
         ("share_percent".toList, JVal.jnum ⟨100, 0⟩)]]),
     (kPlanTable, JVal.jarr [])]
    (by rfl) (by rfl) (by rfl) (by rfl) (by rfl)

/-! # Claim C9 -/

theorem dropWhile_cons_neg {p : Char → Bool} {c : Char} {t : PyStr}
    (h : p c = false) : (c :: t).dropWhile p = c :: t := by
  rw [List.dropWhile_cons, h]
  rfl

theorem lstrip_head_false {p : Char → Bool} {l : PyStr} {c : Char} {t : PyStr}
    (h : l.dropWhile p = c :: t) : p c = false := by
  induction l with
  | nil => simp at h
  | cons a s ih =>
    rw [List.dropWhile_cons] at h
    split at h
    · exact ih h
    · rename_i hpa
      injection h with h1 _
      subst h1
      simpa using hpa

theorem dropWhile_idem {p : Char → Bool} (l : PyStr) :
    (l.dropWhile p).dropWhile p = l.dropWhile p := by
  cases hs : l.dropWhile p with
  | nil => rfl
  | cons c t => exact dropWhile_cons_neg (lstrip_head_false hs)

theorem pyRStripBy_prefix (p : Char → Bool) (l : PyStr) :
    pyRStripBy p l <+: l := by
  unfold pyRStripBy
  conv_rhs => rw [← List.reverse_reverse l]
  exact List.reverse_prefix.mpr (List.dropWhile_suffix p)

theorem pyStrip_head_false {l : PyStr} {c : Char} {t : PyStr}
    (h : pyStrip l = c :: t) : isPyWs c = false := by
  unfold pyStrip at h
  obtain ⟨u, hu⟩ := pyRStripBy_prefix isPyWs (pyLStripBy isPyWs l)
  rw [h] at hu
  exact lstrip_head_false (p := isPyWs) (l := l) (t := t ++ u) hu.symm

theorem lstrip_of_strip (l : PyStr) :
    pyLStripBy isPyWs (pyStrip l) = pyStrip l := by
  cases hs : pyStrip l with
  | nil => rfl
  | cons c t => exact dropWhile_cons_neg (pyStrip_head_false hs)

theorem rstrip_of_strip (l : PyStr) :
    pyRStripBy isPyWs (pyStrip l) = pyStrip l := by
  unfold pyStrip pyRStripBy pyLStripBy
  rw [List.reverse_reverse, dropWhile_idem]

theorem pyStrip_idem (l : PyStr) : pyStrip (pyStrip l) = pyStrip l := by
  show pyRStripBy isPyWs (pyLStripBy isPyWs (pyStrip l)) = pyStrip l
  rw [lstrip_of_strip]
  exact rstrip_of_strip l

theorem isPyWs_of_isJsonWs {c : Char} (h : isJsonWs c = true) :
    isPyWs c = true := by
  have hc : ((c = ' ' ∨ c = '\t') ∨ c = '\n') ∨ c = '\r' := by
    unfold isJsonWs at h
    simpa using h
  rcases hc with ((h1 | h1) | h1) | h1 <;> subst h1 <;> rfl

theorem skipWs_strip (l : PyStr) : skipWs (pyStrip l) = pyStrip l := by
  cases hs : pyStrip l with
  | nil => rfl
  | cons c t =>
    refine dropWhile_cons_neg ?_
    cases hj : isJsonWs c with
    | false => rfl
    | true =>
      have := isPyWs_of_isJsonWs hj
      rw [pyStrip_head_false hs] at this
      exact absurd this (by decide)

theorem pyRStripBy_append_pos {p : Char → Bool} {c : Char} (l : PyStr)
    (h : p c = true) : pyRStripBy p (l ++ [c]) = pyRStripBy p l := by
  unfold pyRStripBy
  rw [List.reverse_append]
  show ((c :: l.reverse).dropWhile p).reverse = _
  rw [List.dropWhile_cons, h]
  rfl

theorem pyRStripBy_append_neg {p : Char → Bool} {c : Char} (l : PyStr)
    (h : p c = false) : pyRStripBy p (l ++ [c]) = l ++ [c] := by
  unfold pyRStripBy
  rw [List.reverse_append]
  show ((c :: l.reverse).dropWhile p).reverse = _
  rw [dropWhile_cons_neg h, List.reverse_cons, List.reverse_reverse]

theorem pyStrip_append_ws {l : PyStr} {c : Char} (h : isPyWs c = true) :
    pyStrip (l ++ [c]) = pyStrip l := by
  show pyRStripBy isPyWs ((l ++ [c]).dropWhile isPyWs) = _
  rw [List.dropWhile_append]
  split
  · rename_i he
    rw [List.isEmpty_iff] at he
    show pyRStripBy isPyWs ([c].dropWhile isPyWs) = pyStrip l
    rw [show ([c] : PyStr).dropWhile isPyWs = [] from by
      rw [List.dropWhile_cons, h]; rfl]
    unfold pyStrip pyLStripBy
    rw [he]
  · exact pyRStripBy_append_pos _ h

theorem splitOnceNl_left {a : PyStr} (b : PyStr) (h : '\n' ∉ a) :
    splitOnceNl (a ++ '\n' :: b) = (a, some b) := by
  induction a with
  | nil => rw [List.nil_append, splitOnceNl, if_pos rfl]
  | cons c t ih =>
    rw [List.cons_append, splitOnceNl,
      if_neg (fun hc => h (by rw [← hc]; exact List.mem_cons_self c t)),
      ih (fun hm => h (List.mem_cons_of_mem c hm))]

theorem rstripBt_body (body : PyStr) (n : Nat) :
    pyRStripBy (fun x => decide (x = '`')) (body ++ '\n' :: List.replicate n '`')
      = body ++ ['\n'] := by
  unfold pyRStripBy
  rw [List.reverse_append, List.reverse_cons, List.reverse_replicate,
    List.append_assoc]
  rw [List.dropWhile_append_of_pos
    (by intro a ha; rw [List.eq_of_mem_replicate ha]; rfl)]
  rw [show ((['\n'] ++ body.reverse).dropWhile (fun x => decide (x = '`')))
      = '\n' :: body.reverse from dropWhile_cons_neg (by rfl)]
  rw [List.reverse_cons, List.reverse_reverse]

theorem pyStrip_fenceOf (tag body : PyStr) (k' : Nat) :
    pyStrip (fenceOf tag body (k' + 1)) = fenceOf tag body (k' + 1) := by
  have h2 : fenceOf tag body (k' + 1)
      = ('`' :: '`' :: '`' :: (tag ++ '\n' :: (body ++ '\n' :: List.replicate k' '`')))
        ++ ['`'] := by
    unfold fenceOf
    rw [List.replicate_succ']
    simp [List.append_assoc]
  show pyRStripBy isPyWs (pyLStripBy isPyWs (fenceOf tag body (k' + 1))) = _
  rw [show pyLStripBy isPyWs (fenceOf tag body (k' + 1))
      = fenceOf tag body (k' + 1) from dropWhile_cons_neg (by rfl)]
  rw [h2, pyRStripBy_append_neg _ (by rfl)]

theorem strip_bt3_tag_starts (tag : PyStr) :
    pyStartsWith (pyStrip ('`' :: '`' :: '`' :: tag)) fence3 = true := by
  unfold pyStrip pyStartsWith
  rw [show pyLStripBy isPyWs ('`' :: '`' :: '`' :: tag)
      = '`' :: '`' :: '`' :: tag from dropWhile_cons_neg (by rfl)]
  unfold pyRStripBy
  rw [show ('`' :: '`' :: '`' :: tag : PyStr) = fence3 ++ tag from rfl,
    List.reverse_append]
  rw [List.dropWhile_append]
  split
  · rw [show (fence3.reverse.dropWhile isPyWs) = fence3.reverse from
      dropWhile_cons_neg (by rfl)]
    rw [List.reverse_reverse]
    decide
  · rw [List.reverse_append, List.reverse_reverse]
    rw [List.isPrefixOf_iff_prefix]
    exact List.prefix_append fence3 _

theorem strip_code_fences_fenceOf (tag body : PyStr) (k' : Nat)
    (htag : '\n' ∉ tag) :
    strip_code_fences (fenceOf tag body (k' + 1)) = pyStrip body := by
  have hsplit : splitOnceNl (fenceOf tag body (k' + 1))
      = ('`' :: '`' :: '`' :: tag,
         some (body ++ '\n' :: List.replicate (k' + 1) '`')) := by
    rw [show fenceOf tag body (k' + 1)
        = ('`' :: '`' :: '`' :: tag)
          ++ '\n' :: (body ++ '\n' :: List.replicate (k' + 1) '`') from by
      unfold fenceOf; simp]
    exact splitOnceNl_left _ (by
      intro hm
      simp only [List.mem_cons] at hm
      rcases hm with h | h | h | hm
      · exact absurd h (by decide)
      · exact absurd h (by decide)
      · exact absurd h (by decide)
      · exact htag hm)
  unfold strip_code_fences
  rw [pyStrip_fenceOf]
  rw [if_pos (by
    unfold fenceOf pyStartsWith
    rw [List.isPrefixOf_iff_prefix]
    exact List.prefix_append fence3 _)]
  rw [hsplit]
  dsimp only
  rw [if_pos (strip_bt3_tag_starts tag)]
  rw [rstripBt_body, pyStrip_append_ws (by rfl)]

theorem parseVal_jobj_head {fuel : Nat} {s r : PyStr} {o : List (PyStr × JVal)}
    (h : parseVal fuel s = some (JVal.jobj o, r)) : ∃ t, s = '{' :: t := by
  match fuel, s with
  | 0, s => exact Option.noConfusion h
  | n + 1, [] => exact Option.noConfusion h
  | n + 1, c :: t =>
    by_cases h1 : c = '{'
    · exact ⟨t, by rw [h1]⟩
    exfalso
    rw [parseVal.eq_def] at h
    dsimp only at h
    rw [if_neg h1] at h
    split_ifs at h
    all_goals
      first
      | exact Option.noConfusion h
      | (injection h with h'
         injection h' with hv hr
         exact JVal.noConfusion hv)
      | (simp only [Option.map_eq_some'] at h
         obtain ⟨a, -, ha⟩ := h
         injection ha with hv hr
         exact JVal.noConfusion hv)

theorem json_loads_jobj_head {s : PyStr} {o : List (PyStr × JVal)}
    (h : json_loads s = some (JVal.jobj o)) : ∃ t, skipWs s = '{' :: t := by
  unfold json_loads at h
  split at h
  · rename_i v rest heq
    split at h
    · rw [Option.some.injEq] at h
      subst h
      exact parseVal_jobj_head heq
    · exact Option.noConfusion h
  · exact Option.noConfusion h

theorem strip_code_fences_of_strip_lbrace {J : PyStr} {t : PyStr}
    (h : pyStrip J = '{' :: t) : strip_code_fences J = pyStrip J := by
  have hneg : ¬(pyStartsWith (pyStrip J) fence3 = true) := by
    rw [h]
    intro hc
    unfold pyStartsWith at hc
    rw [List.isPrefixOf_iff_prefix] at hc
    obtain ⟨u, hu⟩ := hc
    rw [show fence3 ++ u = '`' :: '`' :: '`' :: u from rfl] at hu
    injection hu with hch _
    exact absurd hch (by decide)
  unfold strip_code_fences
  rw [if_neg hneg]
  exact pyStrip_idem J

/-- C9 (confirmed): wrapping a valid JSON object in a code fence (with
an optional language tag and at least one trailing backtick) does not
change what `_parse_llm_json` extracts: both the fenced and the raw
form parse to the same mapping. -/
theorem c9_fence_transparent (tag body : PyStr) (k : Nat)
    (o : List (PyStr × JVal)) (htag : '\n' ∉ tag) (hk : 1 ≤ k)
    (hvalid : json_loads (pyStrip body) = some (JVal.jobj o)) :
    parse_llm_json (fenceOf tag body k) = JVal.jobj o ∧
    parse_llm_json body = JVal.jobj o := by
  obtain ⟨k', rfl⟩ : ∃ k', k = k' + 1 := ⟨k - 1, by omega⟩
  constructor
  · unfold parse_llm_json
    rw [strip_code_fences_fenceOf tag body k' htag]
    dsimp only
    rw [hvalid]
  · obtain ⟨t, ht⟩ := json_loads_jobj_head hvalid
    rw [skipWs_strip] at ht
    unfold parse_llm_json
    rw [strip_code_fences_of_strip_lbrace ht]
    dsimp only
    rw [hvalid]

/-- C9 witness: the fenced form of a concrete JSON object parses to the
same mapping as the raw form. -/
theorem c9_witness :
    json_loads (pyStrip jsonObjSimple)
      = some (JVal.jobj [("a".toList, JVal.jnum ⟨1, 0⟩)]) ∧
    parse_llm_json (fenceOf ("json".toList) jsonObjSimple 3)
      = JVal.jobj [("a".toList, JVal.jnum ⟨1, 0⟩)] ∧
    parse_llm_json jsonObjSimple
      = JVal.jobj [("a".toList, JVal.jnum ⟨1, 0⟩)] :=
  ⟨by rfl,
    (c9_fence_transparent ("json".toList) jsonObjSimple 3 _
      (by decide) (by decide) (by rfl)).1,
    (c9_fence_transparent ("json".toList) jsonObjSimple 3 _
      (by decide) (by decide) (by rfl)).2⟩

/-! # Claim C10 -/

theorem flatMap_guard_eq_filter_map {α β : Type} (p : α → Bool) (g : α → β)
    (l : List α) :
    l.flatMap (fun c => if p c then [g c] else []) = (l.filter p).map g := by
  induction l with
  | nil => rfl
  | cons a t ih =>
    rw [List.flatMap_cons, List.filter_cons]
    cases hp : p a
    · simp only [Bool.false_eq_true, if_false, List.nil_append, ih]
    · simp only [if_true, List.singleton_append, List.map_cons, ih]

theorem token_not_prefix_status (d : PyStr) :
    ("event: token".toList).isPrefixOf (sse sStatus d) = false := by rfl

theorem token_not_prefix_done :
    ("event: token".toList).isPrefixOf (sse sDoneEvent sTrue) = false := by rfl

theorem token_prefix_token (c : PyStr) :
    ("event: token".toList).isPrefixOf (sse sToken c) = true := by rfl

/-- C10 (corrected): the stream is the six pipeline status frames, then
one token frame per chunk *whose stripped content is non-empty* (in
arrival order, newlines collapsed by `_sse`), then *two* closing status
frames and the terminal done frame; the number of token frames equals
the number of strip-non-empty chunks. -/
theorem c10_stream_shape (rag_ctx : List PyStr) (web_text : Option PyStr)
    (chunks : List PyStr) :
    stream_research rag_ctx web_text chunks
      = [sse sStatus stStart, sse sStatus stRagSearch,
         sse sStatus (stRagDone rag_ctx.length), sse sStatus stWebSearch,
         sse sStatus (if optStrTruthy web_text then stWebDone else stWebFail),
         sse sStatus stSynth]
        ++ ((chunks.filter (fun c => !(pyStrip c).isEmpty)).map (sse sToken))
        ++ [sse sStatus stSynthDone, sse sStatus stReady,
            sse sDoneEvent sTrue] ∧
    ((stream_research rag_ctx web_text chunks).filter
        (fun f => ("event: token".toList).isPrefixOf f)).length
      = (chunks.filter (fun c => !(pyStrip c).isEmpty)).length := by
  have hshape : stream_research rag_ctx web_text chunks
      = [sse sStatus stStart, sse sStatus stRagSearch,
         sse sStatus (stRagDone rag_ctx.length), sse sStatus stWebSearch,
         sse sStatus (if optStrTruthy web_text then stWebDone else stWebFail),
         sse sStatus stSynth]
        ++ ((chunks.filter (fun c => !(pyStrip c).isEmpty)).map (sse sToken))
        ++ [sse sStatus stSynthDone, sse sStatus stReady,
            sse sDoneEvent sTrue] := by
    unfold stream_research
    rw [flatMap_guard_eq_filter_map]
  refine ⟨hshape, ?_⟩
  rw [hshape]
  rw [List.filter_append, List.filter_append]
  rw [show List.filter (fun f => ("event: token".toList).isPrefixOf f)
      [sse sStatus stStart, sse sStatus stRagSearch,
       sse sStatus (stRagDone rag_ctx.length), sse sStatus stWebSearch,
       sse sStatus (if optStrTruthy web_text then stWebDone else stWebFail),
       sse sStatus stSynth] = [] from List.filter_eq_nil_iff.mpr (by
    intro a ha
    simp only [List.mem_cons, List.not_mem_nil, or_false] at ha
    rcases ha with h | h | h | h | h | h <;>
      (subst h
       intro hh
       rw [token_not_prefix_status] at hh
       exact Bool.noConfusion hh))]
  rw [show List.filter (fun f => ("event: token".toList).isPrefixOf f)
      [sse sStatus stSynthDone, sse sStatus stReady, sse sDoneEvent sTrue]
      = [] from List.filter_eq_nil_iff.mpr (by
    intro a ha
    simp only [List.mem_cons, List.not_mem_nil, or_false] at ha
    rcases ha with h | h | h
    · subst h
      intro hh
      rw [token_not_prefix_status] at hh
      exact Bool.noConfusion hh
    · subst h
      intro hh
      rw [token_not_prefix_status] at hh
      exact Bool.noConfusion hh
    · subst h
      intro hh
      rw [token_not_prefix_done] at hh
      exact Bool.noConfusion hh)]
  rw [List.nil_append, List.append_nil]
  rw [List.filter_map]
  rw [show ((chunks.filter (fun c => !(pyStrip c).isEmpty)).filter
      (((fun f => ("event: token".toList).isPrefixOf f)) ∘ (sse sToken)))
      = chunks.filter (fun c => !(pyStrip c).isEmpty) from by
    apply List.filter_eq_self.mpr
    intro a _
    exact token_prefix_token a]
  rw [List.length_map]

/-- C10 counterexample: a whitespace-only chunk is a non-empty chunk
that yields no token frame, and the stream closes with two status
frames before "done", not one. -/
theorem c10_counterexample :
    (([" ".toList] : List PyStr).filter (fun c => !c.isEmpty)).length = 1 ∧
    ((stream_research [] none [" ".toList]).filter
        (fun f => ("event: token".toList).isPrefixOf f)).length = 0 ∧
    (stream_research [] none [" ".toList]).drop 6
      = [sse sStatus stSynthDone, sse sStatus stReady, sse sDoneEvent sTrue] :=
  ⟨by rfl, by rfl, by rfl⟩

/-! # Claim C8 -/

theorem lookupStore_storeSet_self (store : Store) (k : PyStr) (v : ConvState) :
    lookupStore (storeSet store k v) k = some v := by
  induction store with
  | nil => simp [storeSet, lookupStore]
  | cons a t ih =>
    cases a with
    | mk k' v' =>
      rw [storeSet]
      by_cases hk : k' = k
      · rw [if_pos hk, lookupStore, if_pos hk]
      · rw [if_neg hk, lookupStore, if_neg hk]
        exact ih

/-- One deep-dive turn: pops the head conflict, makes exactly one web
search with the `{company} {topic} official report` query at 3 results
and one model call, appends exactly one turn. -/
theorem deep_dive_step (env : Env) (store : Store) (cid msg : PyStr)
    (st : ConvState) (c : JVal) (cs : List JVal) (cf : List (PyStr × JVal))
    (hlook : lookupStore store cid = some st)
    (hq : st.conflicts_to_resolve = JVal.jarr (c :: cs))
    (hcf : c = JVal.jobj cf)
    (henv : ∀ sys usr, ∃ kvs,
      parse_llm_json (env.call_llm sys usr) = JVal.jobj kvs)
    (hdd : deepDivePred (pyLower (pyStrip msg)) = true)
    (hchart : chartRulePred (pyLower (pyStrip msg)) = false)
    (hswot : swotRulePred (pyLower (pyStrip msg)) = false)
    (hkpi : kpiRulePred (pyLower (pyStrip msg)) = false) :
    ∃ reply, chat_with_agent env store ⟨cid, msg⟩
      = some (storeSet store cid
          ⟨st.plan, st.history ++ [(pyStrip msg, reply)], JVal.jarr cs⟩,
         reply,
         [Effect.webSearch (deepDiveQueryOf st.plan.company_name c) 3,
          Effect.llmCall]) := by
  unfold chat_with_agent
  rw [hlook]
  dsimp only
  rw [if_neg (by rw [hchart]; decide), if_neg (by rw [hswot]; decide)]
  rw [optionSomeBind]
  dsimp only
  rw [if_neg (by decide), if_neg (by rw [hkpi]; decide)]
  rw [hq]
  rw [if_pos (by rw [hdd]; rfl)]
  dsimp only
  rw [hcf]
  dsimp only
  rw [optionSomeBind]
  obtain ⟨kvs, hkvs⟩ := henv BASE_SYSTEM_PROMPT
    (resolutionPromptOf st.plan.company_name
      (pyStrOf (objGetD cf kTopic (JVal.jstr topicDefault)))
      (match env.web_search (st.plan.company_name ++ ' '
          :: (pyStrOf (objGetD cf kTopic (JVal.jstr topicDefault))
            ++ officialReportSuffix)) 3 with
       | some w => if w.isEmpty then noNewDataText else w
       | none => noNewDataText))
  rw [hkvs]
  dsimp only
  rw [optionSomeBind]
  exact ⟨_, rfl⟩

/-- C8 (corrected): starting from M queued conflicts, N messages (N ≤ M)
that each contain "deep-dive" or "dig deeper" *and do not match any of
the earlier chart/KPI dispatch rules* (and with every model reply
parsing to a mapping, as unparseable text does) drain the queue to
M − N entries; each turn pops the oldest conflict, issues exactly one
web search `"{company} {topic} official report"` with 3 results and one
model call, and appends exactly one transcript turn. -/
theorem c8_deep_dive_drain (env : Env) (store : Store) (cid : PyStr)
    (msgs : List PyStr) (st : ConvState) (cs : List JVal)
    (hlook : lookupStore store cid = some st)
    (hq : st.conflicts_to_resolve = JVal.jarr cs)
    (hcs : ∀ c ∈ cs, ∃ cf, c = JVal.jobj cf)
    (henv : ∀ sys usr, ∃ kvs,
      parse_llm_json (env.call_llm sys usr) = JVal.jobj kvs)
    (hlen : msgs.length ≤ cs.length)
    (hmsgs : ∀ m ∈ msgs,
      deepDivePred (pyLower (pyStrip m)) = true ∧
      chartRulePred (pyLower (pyStrip m)) = false ∧
      swotRulePred (pyLower (pyStrip m)) = false ∧
      kpiRulePred (pyLower (pyStrip m)) = false) :
    ∃ store' effs, chatMany env cid msgs store = some (store', effs) ∧
      ∃ st', lookupStore store' cid = some st' ∧
        st'.plan = st.plan ∧
        st'.conflicts_to_resolve = JVal.jarr (cs.drop msgs.length) ∧
        (cs.drop msgs.length).length = cs.length - msgs.length ∧
        st'.history.length = st.history.length + msgs.length ∧
        effs.length = msgs.length ∧
        (∀ i, (hi : i < effs.length) → (hci : i < cs.length) →
          effs.get ⟨i, hi⟩
            = [Effect.webSearch
                (deepDiveQueryOf st.plan.company_name (cs.get ⟨i, hci⟩)) 3,
               Effect.llmCall]) := by
  induction msgs generalizing store st cs with
  | nil =>
    refine ⟨store, [], rfl, st, hlook, rfl, ?_, ?_, ?_, rfl, ?_⟩
    · rw [List.length_nil, List.drop_zero]
      exact hq
    · rw [List.length_drop]
    · simp
    · intro i hi hci
      exact absurd hi (by simp)
  | cons m ms ih =>
    have hm := hmsgs m (List.mem_cons_self m ms)
    cases cs with
    | nil => simp at hlen
    | cons c cs' =>
      obtain ⟨cf, hcf⟩ := hcs c (List.mem_cons_self c cs')
      obtain ⟨reply, hstep⟩ := deep_dive_step env store cid m st c cs' cf
        hlook hq hcf henv hm.1 hm.2.1 hm.2.2.1 hm.2.2.2
      obtain ⟨store', effs, hmany, st', hlook', hplan, hconf, hdroplen,
          hhist, heffs, hidx⟩ :=
        ih (storeSet store cid
            ⟨st.plan, st.history ++ [(pyStrip m, reply)], JVal.jarr cs'⟩)
          ⟨st.plan, st.history ++ [(pyStrip m, reply)], JVal.jarr cs'⟩ cs'
          (lookupStore_storeSet_self store cid _) rfl
          (fun c' hc' => hcs c' (List.mem_cons_of_mem c hc'))
          (by simp only [List.length_cons] at hlen; omega)
          (fun m' hm' => hmsgs m' (List.mem_cons_of_mem m hm'))
      refine ⟨store',
        [Effect.webSearch (deepDiveQueryOf st.plan.company_name c) 3,
         Effect.llmCall] :: effs, ?_, st', hlook', hplan, ?_, ?_, ?_, ?_, ?_⟩
      · rw [chatMany, hstep]
        rw [optionSomeBind]
        dsimp only
        rw [hmany, optionSomeBind]
      · rw [List.length_cons, List.drop_succ_cons]
        exact hconf
      · rw [List.length_drop]
      · rw [hhist, List.length_append]
        simp only [List.length_cons, List.length_singleton, List.length_nil]
        omega
      · rw [List.length_cons, heffs, List.length_cons]
      · intro i hi hci
        cases i with
        | zero => rfl
        | succ j =>
          rw [List.get_cons_succ, List.get_cons_succ]
          exact hidx j (by simpa using hi) (by simpa using hci)

/-- C8 counterexample: a message that contains "deep-dive" but also
matches the earlier KPI rule is handled by the KPI rule — the queue
keeps its single conflict (the claim expects max(1−1,0) = 0) and no web
search is issued. -/
theorem c8_counterexample :
    pyContains (pyLower (pyStrip msgDeepDiveKpi)) sDeepDive = true ∧
    (chatMany envNull cid1 [msgDeepDiveKpi] storeConflictsKpi).map
      (fun r => (lookupStore r.1 cid1).map (fun st =>
        match st.conflicts_to_resolve with
        | JVal.jarr l => l.length
        | _ => 0)) = some (some 1) ∧
    (chatMany envNull cid1 [msgDeepDiveKpi] storeConflictsKpi).map
      (fun r => r.2) = some [[]] :=
  ⟨by rfl, by rfl, by rfl⟩

/-- C8 witness: with two queued conflicts and one clean "dig deeper"
message, the amended theorem applies and drains the queue to one. -/
theorem c8_witness :
    ∃ store' effs,
      chatMany envNull cid1 [msgDeepDive] storeConflicts
        = some (store', effs) ∧
      ∃ st', lookupStore store' cid1 = some st' ∧
        st'.plan = basePlan ∧
        st'.conflicts_to_resolve
          = JVal.jarr ([conflictA, conflictB].drop [msgDeepDive].length) ∧
        ([conflictA, conflictB].drop [msgDeepDive].length).length
          = [conflictA, conflictB].length - [msgDeepDive].length ∧
        st'.history.length = ([] : List (PyStr × PyStr)).length
          + [msgDeepDive].length ∧
        effs.length = [msgDeepDive].length ∧
        (∀ i, (hi : i < effs.length) →
          (hci : i < [conflictA, conflictB].length) →
          effs.get ⟨i, hi⟩
            = [Effect.webSearch
                (deepDiveQueryOf basePlan.company_name
                  ([conflictA, conflictB].get ⟨i, hci⟩)) 3,
               Effect.llmCall]) :=
  c8_deep_dive_drain envNull storeConflicts cid1 [msgDeepDive]
    ⟨basePlan, [], JVal.jarr [conflictA, conflictB]⟩ [conflictA, conflictB]
    (by rfl) (by rfl)
    (by
      intro c hc
      simp only [List.mem_cons, List.not_mem_nil, or_false] at hc
      rcases hc with h | h
      · exact ⟨_, by rw [h]; rfl⟩
      · exact ⟨_, by rw [h]; rfl⟩)
    (fun sys usr => ⟨[], by rfl⟩)
    (by decide)
    (by
      intro m hm
      simp only [List.mem_cons, List.not_mem_nil, or_false] at hm
      subst hm
      exact ⟨by rfl, by rfl, by rfl, by rfl⟩)
